import Mathlib

/-!
# Verification of the A3ITranslator recording/silence lifecycle engine

Shallow embedding of the client-side engine of the A3ITranslator repository:
the dual session/operation state machine (`stateManager.ts`), the reducer
wiring (`AppStateContext.tsx`, `useRecording.ts`), the silence detector and
boundary trimmer (`SilenceDetectionService.ts`), the speech validity
classifier and recording manager (`AudioRecordingManager.ts`), and the
translation service retry logic (`TranslationService.ts`).

Machine floats are modelled as rationals; comparisons of the form
`Math.sqrt (x) < t` with `t ≥ 0` and `x ≥ 0` are rendered as the equivalent
`x < t^2` because `ℚ` has no square root.  Browser/IO steps (fetch, decode,
encode, timers) are oracle parameters.  JS reference equality on `Blob`
objects is modelled by a numeric identity field.
-/

namespace A3I

/-! ## State enums (`src/frontend/src/types/StateEnums.ts`) -/

inductive SessionState where
  | idle
  | active
  | paused
  | endingConfirmation
  | ended
  deriving DecidableEq, Repr, Fintype

inductive OperationState where
  | idle
  | preparing
  | recording
  | processing
  | validationFailed
  | translating
  | playing
  | error
  deriving DecidableEq, Repr, Fintype

inductive StateEvent where
  | startSession
  | pauseSession
  | resumeSession
  | requestEndSession
  | confirmEndSession
  | cancelEndSession
  | startCountdown
  | updateCountdown
  | completeCountdown
  | startRecording
  | detectSilence
  | stopRecording
  | startTranslation
  | completeTranslation
  | startPlayback
  | completePlayback
  | recordingError
  | translationError
  | playbackError
  | invalidAudio
  | clearError
  | reset
  | resetAudio
  | updateState
  deriving DecidableEq, Repr, Fintype

/-! ## Transition tables (`stateManager.ts`, `sessionTransitions` /
`operationTransitions`).  A missing entry is `none`. -/

def sessionTransitions : SessionState → StateEvent → Option SessionState
  | .idle, .startSession => some .active
  | .active, .pauseSession => some .paused
  | .active, .requestEndSession => some .endingConfirmation
  | .active, .reset => some .idle
  | .paused, .resumeSession => some .active
  | .paused, .requestEndSession => some .endingConfirmation
  | .paused, .reset => some .idle
  | .endingConfirmation, .confirmEndSession => some .ended
  | .endingConfirmation, .cancelEndSession => some .active
  | .ended, .reset => some .idle
  | _, _ => none

def operationTransitions : OperationState → StateEvent → Option OperationState
  | .idle, .startCountdown => some .preparing
  | .idle, .startRecording => some .recording
  | .preparing, .completeCountdown => some .recording
  | .preparing, .reset => some .idle
  | .recording, .stopRecording => some .processing
  | .recording, .recordingError => some .error
  | .recording, .resetAudio => some .idle
  | .recording, .reset => some .idle
  | .processing, .startTranslation => some .translating
  | .processing, .invalidAudio => some .validationFailed
  | .processing, .reset => some .idle
  | .validationFailed, .resetAudio => some .preparing
  | .validationFailed, .reset => some .idle
  | .translating, .completeTranslation => some .playing
  | .translating, .translationError => some .error
  | .translating, .reset => some .idle
  | .playing, .completePlayback => some .idle
  | .playing, .playbackError => some .error
  | .playing, .reset => some .idle
  | .error, .clearError => some .idle
  | .error, .reset => some .idle
  | _, _ => none

/-! ## Application state (`AppState` in `stateManager.ts`).

Only the fields that `StateManager.dispatch` reads or writes are modelled;
the remaining fields (languages, conversation history, analyser node, …)
are carried through every operation unchanged and are omitted. -/

structure AppState where
  sessionState : SessionState
  operationState : OperationState
  countdown : Option Int
  error : Option String
  statusMessage : String
  silenceCountdown : Option Int
  sessionId : Option String
  sessionExpiry : Option Int
  deriving DecidableEq, Repr

/-- The constructor's initial state (`new StateManager()` with no overrides). -/
def initialState : AppState where
  sessionState := .idle
  operationState := .idle
  countdown := none
  error := none
  statusMessage := "Ready"
  silenceCountdown := none
  sessionId := none
  sessionExpiry := none

/-- `StateEventPayload`: the payload keys that can affect the modelled
fields.  `countdown`, `error`, `statusMessage` are the declared optional
keys; the rest reach the state through the index signature and the
`restPayload` merge in `handleSpecialEvents` (or through `updateState` for
`UPDATE_STATE`).  `none` means the key is absent. -/
structure StateEventPayload where
  countdown : Option Int
  error : Option String
  statusMessage : Option String
  sessionState : Option SessionState
  operationState : Option OperationState
  silenceCountdown : Option (Option Int)
  sessionId : Option (Option String)
  sessionExpiry : Option (Option Int)
  deriving DecidableEq, Repr

def emptyPayload : StateEventPayload where
  countdown := none
  error := none
  statusMessage := none
  sessionState := none
  operationState := none
  silenceCountdown := none
  sessionId := none
  sessionExpiry := none

/-- `StateManager.updateState` — shallow merge of the payload's present
keys into the state. -/
def updateState (st : AppState) (p : StateEventPayload) : AppState where
  sessionState := p.sessionState.getD st.sessionState
  operationState := p.operationState.getD st.operationState
  countdown := (p.countdown.map some).getD st.countdown
  error := (p.error.map some).getD st.error
  statusMessage := p.statusMessage.getD st.statusMessage
  silenceCountdown := p.silenceCountdown.getD st.silenceCountdown
  sessionId := p.sessionId.getD st.sessionId
  sessionExpiry := p.sessionExpiry.getD st.sessionExpiry

/-- The `restPayload` merge at the end of `handleSpecialEvents`: the payload
minus the already-handled `countdown`, `error` and `statusMessage` keys. -/
def applyRestPayload (st : AppState) (p : StateEventPayload) : AppState :=
  updateState st { p with countdown := none, error := none, statusMessage := none }

/-- `updateRelatedStates` — clears session id/expiry when the session state
lands on `IDLE` or `ENDED`; called only after a session-table transition. -/
def updateRelatedStates (st : AppState) : AppState :=
  match st.sessionState with
  | .idle => { st with sessionId := none, sessionExpiry := none }
  | .ended => { st with sessionId := none, sessionExpiry := none }
  | _ => st

/-- JS truthiness of a nullable string (`if (error)`): `null` and `""` are
falsy. -/
def strTruthy : Option String → Bool
  | none => false
  | some s => s ≠ ""

/-- `updateStatusMessage`, rendered as the pure function computing the new
`statusMessage` (the method writes only that field). -/
def statusFor (st : AppState) : String :=
  if st.statusMessage.startsWith "Error:" then st.statusMessage
  else if strTruthy st.error then "Error: " ++ st.error.getD ""
  else if st.sessionState = .idle then "Ready to start"
  else if st.sessionState = .ended then "Session ended"
  else if st.sessionState = .paused then "Paused"
  else match st.countdown with
  | some c => "Starting in " ++ toString c ++ "..."
  | none => match st.silenceCountdown with
    | some c => "Silence detected, stopping in " ++ toString c ++ "..."
    | none => match st.operationState with
      | .preparing => "Preparing..."
      | .recording => "Recording..."
      | .processing => "Processing audio..."
      | .validationFailed =>
          if strTruthy st.error then st.error.getD "" else "No speech detected. Please try again."
      | .translating => "Translating..."
      | .playing => "Playing translation..."
      | .error => "Error occurred"
      | _ => "Ready"

def updateStatusMessage (st : AppState) : AppState :=
  { st with statusMessage := statusFor st }

/-- Session-axis step of `dispatch`: apply the table entry when present and
then refresh the related session fields. -/
def applySessionStep (st : AppState) (e : StateEvent) : AppState :=
  match sessionTransitions st.sessionState e with
  | some s => updateRelatedStates { st with sessionState := s }
  | none => st

/-- Operation-axis step of `dispatch`. -/
def applyOperationStep (st : AppState) (e : StateEvent) : AppState :=
  match operationTransitions st.operationState e with
  | some o => { st with operationState := o }
  | none => st

/-- `this.state.countdown = payload?.countdown ?? this.state.countdown` in
the `UPDATE_COUNTDOWN` branch of `handleSpecialEvents`. -/
def mergedCountdown (st : AppState) (p : Option StateEventPayload) : Option Int :=
  ((p.bind (·.countdown)).map some).getD st.countdown

/-- The `switch (event)` body of `handleSpecialEvents`.  `recurse` stands
for the one re-entrant call `this.dispatch(StateEvent.COMPLETE_COUNTDOWN)`
made when an `UPDATE_COUNTDOWN` leaves the stored countdown at `0`. -/
def handleSpecialSwitch (recurse : AppState → AppState)
    (st : AppState) (e : StateEvent) (p : Option StateEventPayload) : AppState :=
  match e with
  | .reset => { st with countdown := none, error := none, silenceCountdown := none }
  | .recordingError | .translationError | .playbackError =>
      match p.bind (·.error) with
      | some err => { st with error := some err }
      | none => st
  | .startCountdown => { st with countdown := some ((p.bind (·.countdown)).getD 3) }
  | .updateCountdown =>
      if mergedCountdown st p = some 0 then recurse { st with countdown := mergedCountdown st p }
      else { st with countdown := mergedCountdown st p }
  | .completeCountdown => { st with countdown := none }
  | .detectSilence =>
      match p.bind (·.countdown) with
      | some c => { st with silenceCountdown := some c }
      | none => st
  | _ => st

/-- `handleSpecialEvents`: the event switch followed by the merge of the
remaining payload keys. -/
def handleSpecialEvents (recurse : AppState → AppState)
    (st : AppState) (e : StateEvent) (p : Option StateEventPayload) : AppState :=
  match p with
  | some pl => applyRestPayload (handleSpecialSwitch recurse st e p) pl
  | none => handleSpecialSwitch recurse st e p

/-- `StateManager.dispatch`, fuelled.  The only recursive call is the
`COMPLETE_COUNTDOWN` re-dispatch inside `handleSpecialEvents`; that inner
dispatch never recurses again, so fuel `2` is always enough. -/
def dispatchF : Nat → AppState → StateEvent → Option StateEventPayload → AppState
  | 0, st, _, _ => st
  | Nat.succ n, st, e, p =>
    if e = .updateState ∧ p.isSome then
      updateState st (p.getD emptyPayload)
    else
      updateStatusMessage
        (handleSpecialEvents (fun s => dispatchF n s .completeCountdown none)
          (applyOperationStep (applySessionStep st e) e) e p)

def dispatch (st : AppState) (e : StateEvent) (p : Option StateEventPayload) : AppState :=
  dispatchF 2 st e p

/-! ## Basic facts about the two state axes under `dispatch` -/

theorem updateRelatedStates_axes (st : AppState) :
    (updateRelatedStates st).sessionState = st.sessionState ∧
    (updateRelatedStates st).operationState = st.operationState := by
  cases h : st.sessionState <;> simp [updateRelatedStates, h]

theorem applySessionStep_axes (st : AppState) (e : StateEvent) :
    (applySessionStep st e).sessionState = (sessionTransitions st.sessionState e).getD st.sessionState ∧
    (applySessionStep st e).operationState = st.operationState := by
  unfold applySessionStep
  cases h : sessionTransitions st.sessionState e with
  | none => simp
  | some s =>
    have h1 := updateRelatedStates_axes { st with sessionState := s }
    simp_all

theorem applyOperationStep_axes (st : AppState) (e : StateEvent) :
    (applyOperationStep st e).sessionState = st.sessionState ∧
    (applyOperationStep st e).operationState = (operationTransitions st.operationState e).getD st.operationState := by
  unfold applyOperationStep
  cases h : operationTransitions st.operationState e <;> simp

theorem mergedCountdown_none (st : AppState) : mergedCountdown st none = st.countdown := rfl

theorem handleSpecialEvents_none_axes (r : AppState → AppState) (st : AppState) (e : StateEvent)
    (h : e = .updateCountdown → st.countdown ≠ some 0) :
    (handleSpecialEvents r st e none).sessionState = st.sessionState ∧
    (handleSpecialEvents r st e none).operationState = st.operationState := by
  cases e
  case updateCountdown =>
    have h' := h rfl
    simp only [handleSpecialEvents, handleSpecialSwitch, mergedCountdown_none]
    rw [if_neg h']
    exact ⟨rfl, rfl⟩
  all_goals simp [handleSpecialEvents, handleSpecialSwitch, Option.bind]

theorem updateStatusMessage_axes (st : AppState) :
    (updateStatusMessage st).sessionState = st.sessionState ∧
    (updateStatusMessage st).operationState = st.operationState := by
  constructor <;> simp only [updateStatusMessage]

theorem dispatchF_succ_none_axes (n : Nat) (st : AppState) (e : StateEvent)
    (h : e = .updateCountdown → st.countdown ≠ some 0) :
    (dispatchF (n + 1) st e none).sessionState = (sessionTransitions st.sessionState e).getD st.sessionState ∧
    (dispatchF (n + 1) st e none).operationState = (operationTransitions st.operationState e).getD st.operationState := by
  have hne : ¬(e = StateEvent.updateState ∧ (none : Option StateEventPayload).isSome) := by
    simp
  rw [dispatchF, if_neg hne]
  have h1 := applySessionStep_axes st e
  have h2 := applyOperationStep_axes (applySessionStep st e) e
  have h3 := handleSpecialEvents_none_axes (fun s => dispatchF n s .completeCountdown none)
    (applyOperationStep (applySessionStep st e) e) e (by
      intro he
      subst he
      have hc : (applyOperationStep (applySessionStep st .updateCountdown) .updateCountdown).countdown
          = st.countdown := by
        simp [applySessionStep, applyOperationStep, sessionTransitions, operationTransitions]
      rw [hc]
      exact h rfl)
  have h4 := updateStatusMessage_axes
    (handleSpecialEvents (fun s => dispatchF n s .completeCountdown none)
      (applyOperationStep (applySessionStep st e) e) e none)
  refine ⟨?_, ?_⟩
  · rw [h4.1, h3.1, h2.1, h1.1]
  · rw [h4.2, h3.2, h2.2, h1.2]

/-- Payload-free dispatch follows the two transition tables, one axis at a
time, except for the `UPDATE_COUNTDOWN`-at-zero re-dispatch. -/
theorem dispatch_none_axes (st : AppState) (e : StateEvent)
    (h : e = .updateCountdown → st.countdown ≠ some 0) :
    (dispatch st e none).sessionState = (sessionTransitions st.sessionState e).getD st.sessionState ∧
    (dispatch st e none).operationState = (operationTransitions st.operationState e).getD st.operationState :=
  dispatchF_succ_none_axes 1 st e h

/-- Payload-free `UPDATE_COUNTDOWN` on a state whose stored countdown is `0`
re-dispatches `COMPLETE_COUNTDOWN`: the session axis is untouched (neither
event has session entries) and the operation axis takes the
`COMPLETE_COUNTDOWN` table entry. -/
theorem dispatch_updateCountdown_zero_axes (st : AppState) (h : st.countdown = some 0) :
    (dispatch st .updateCountdown none).sessionState = st.sessionState ∧
    (dispatch st .updateCountdown none).operationState
      = (operationTransitions st.operationState .completeCountdown).getD st.operationState := by
  have hs1 : applySessionStep st .updateCountdown = st := by
    simp [applySessionStep, sessionTransitions]
  have hs2 : applyOperationStep st .updateCountdown = st := by
    simp [applyOperationStep, operationTransitions]
  have hh : handleSpecialEvents (fun s => dispatchF 1 s .completeCountdown none) st .updateCountdown none
      = dispatchF 1 st .completeCountdown none := by
    simp only [handleSpecialEvents, handleSpecialSwitch, mergedCountdown_none]
    rw [if_pos h]
  have key : dispatch st .updateCountdown none
      = updateStatusMessage (dispatchF 1 st .completeCountdown none) := by
    show dispatchF 2 st .updateCountdown none = _
    rw [dispatchF, if_neg (by simp), hs1, hs2, hh]
  rw [key]
  have hinner := dispatchF_succ_none_axes 0 st .completeCountdown (by simp)
  norm_num at hinner
  have h4 := updateStatusMessage_axes (dispatchF 1 st .completeCountdown none)
  have hsessNone : sessionTransitions st.sessionState .completeCountdown = none := by
    cases st.sessionState <;> rfl
  rw [h4.1, h4.2, hinner.1, hinner.2, hsessNone]
  exact ⟨rfl, rfl⟩

/-! ## Guarded event traces (orchestrator discipline) -/

/-- Guard on payload-free dispatches, reflecting the orchestrator's use of
the state machine: recording-starting events (`START_RECORDING`,
`COMPLETE_COUNTDOWN`, and `UPDATE_COUNTDOWN`, which can complete the
countdown) are dispatched only while the session is `ACTIVE`, and
`CONFIRM_END_SESSION` is not dispatched mid-recording. -/
def recGuard (st : AppState) (e : StateEvent) : Prop :=
  ((e = .startRecording ∨ e = .completeCountdown ∨ e = .updateCountdown) → st.sessionState = .active) ∧
  (e = .confirmEndSession → st.operationState ≠ .recording)

/-- States reachable from the initial state by payload-free guarded
dispatches. -/
inductive ReachableG : AppState → Prop where
  | init : ReachableG initialState
  | step {st : AppState} {e : StateEvent} :
      ReachableG st → recGuard st e → ReachableG (dispatch st e none)

/-- One guarded table step (each axis moving by its table entry, staying
put with no entry) preserves the invariant "never Recording while the
session is Idle or Ended".  Checked over all 5 × 8 × 24 combinations. -/
theorem tableStep_preserves_invariant :
    ∀ (s : SessionState) (o : OperationState) (e : StateEvent),
      ((e = .startRecording ∨ e = .completeCountdown ∨ e = .updateCountdown) → s = .active) →
      (e = .confirmEndSession → o ≠ .recording) →
      ¬(o = .recording ∧ (s = .idle ∨ s = .ended)) →
      ¬((operationTransitions o e).getD o = .recording ∧
        ((sessionTransitions s e).getD s = .idle ∨ (sessionTransitions s e).getD s = .ended)) := by
  decide

/-- C2 (counterexample): after `START_COUNTDOWN`, dispatching
`UPDATE_COUNTDOWN` with payload countdown `0` changes the operation axis
although `operationTransitions` has no entry for it — `handleSpecialEvents`
re-dispatches `COMPLETE_COUNTDOWN`. -/
theorem updateCountdown_moves_axis_without_entry :
    operationTransitions (dispatch initialState .startCountdown none).operationState .updateCountdown = none ∧
    (dispatch (dispatch initialState .startCountdown none) .updateCountdown
        (some { emptyPayload with countdown := some 0 })).operationState
      ≠ (dispatch initialState .startCountdown none).operationState := by
  decide

/-- C2 (amended): for every state and every event dispatched with no
payload — except `UPDATE_COUNTDOWN` on a state whose stored countdown is
`0`, which performs the `COMPLETE_COUNTDOWN` transition — the new session
(resp. operation) state is the `sessionTransitions` (resp.
`operationTransitions`) entry when one exists and is unchanged otherwise;
`dispatch` is a total function, so an event with no entry is a silent
no-op, never an error. -/
theorem dispatch_follows_tables_without_payload :
    ∀ (st : AppState) (e : StateEvent), (e = .updateCountdown → st.countdown ≠ some 0) →
      (dispatch st e none).sessionState = (sessionTransitions st.sessionState e).getD st.sessionState ∧
      (dispatch st e none).operationState = (operationTransitions st.operationState e).getD st.operationState :=
  dispatch_none_axes

/-- C2 (witness): the amended claim evaluated at the initial state and
`START_SESSION`. -/
theorem dispatch_follows_tables_without_payload_witness :
    (dispatch initialState .startSession none).sessionState
      = (sessionTransitions initialState.sessionState .startSession).getD initialState.sessionState ∧
    (dispatch initialState .startSession none).operationState
      = (operationTransitions initialState.operationState .startSession).getD initialState.operationState :=
  dispatch_follows_tables_without_payload initialState .startSession (by decide)

/-- C3 (counterexample): a single `START_RECORDING` dispatched from the
initial state puts the operation axis in `RECORDING` while the session
axis is still `IDLE` — the tables alone do not enforce the invariant. -/
theorem recording_reachable_on_idle_session :
    (dispatch initialState .startRecording none).operationState = .recording ∧
    (dispatch initialState .startRecording none).sessionState = .idle := by
  decide

/-- C3 (amended): along every payload-free event sequence in which
`START_RECORDING`, `COMPLETE_COUNTDOWN` and `UPDATE_COUNTDOWN` are
dispatched only while the session is `ACTIVE` and `CONFIRM_END_SESSION`
only while the operation axis is not `RECORDING`, the operation state is
never `RECORDING` while the session state is `IDLE` or `ENDED`. -/
theorem recording_requires_open_session :
    ∀ st : AppState, ReachableG st →
      ¬(st.operationState = .recording ∧ (st.sessionState = .idle ∨ st.sessionState = .ended)) := by
  intro st h
  induction h with
  | init => simp [initialState]
  | @step st e hre hg ih =>
    by_cases hz : e = .updateCountdown ∧ st.countdown = some 0
    · obtain ⟨he, hcd⟩ := hz
      subst he
      have hax := dispatch_updateCountdown_zero_axes st hcd
      have hsess : st.sessionState = .active := hg.1 (Or.inr (Or.inr rfl))
      rw [hax.1, hsess]
      rintro ⟨-, hbad⟩
      rcases hbad with hbad | hbad <;> exact SessionState.noConfusion hbad
    · have hax := dispatch_none_axes st e (fun he hc => hz ⟨he, hc⟩)
      rw [hax.1, hax.2]
      exact tableStep_preserves_invariant st.sessionState st.operationState e hg.1 hg.2 ih

/-- C3 (witness): the amended invariant at the initial state. -/
theorem recording_requires_open_session_witness :
    ¬(initialState.operationState = .recording ∧
      (initialState.sessionState = .idle ∨ initialState.sessionState = .ended)) :=
  recording_requires_open_session initialState ReachableG.init

/-! ## Blobs, the audio service and the recording manager
(`AudioService.ts`, `AudioRecordingManager.ts`)

A JS `Blob` is an immutable byte buffer compared by reference; `ident`
models the reference identity, `size` the byte length. -/

structure Blob where
  ident : Nat
  size : Nat
  deriving DecidableEq, Repr

/-- The `AudioService` fields relevant to recording state: whether
`RTCRecorder` is non-null (`isRecording()`), and the collected
`audioChunks`. -/
structure AudioServiceState where
  rtcActive : Bool
  audioChunks : List Blob
  deriving DecidableEq, Repr

/-- `AudioService.cleanup()` — destroys the recorder, closes the context,
stops the tracks and clears the chunk list. -/
def svcCleanup (_s : AudioServiceState) : AudioServiceState where
  rtcActive := false
  audioChunks := []

/-- The `AudioRecordingManager` fields.  `currentAnalyser` models whether
an analyser node is held; sample buffers are rational-valued. -/
structure AudioRecordingManagerState where
  isRecording : Bool
  processingRequest : Bool
  resourcesCleanedUp : Bool
  audioSamples : List (List ℚ)
  recordingStartTime : Option ℚ
  currentAnalyser : Bool
  svc : AudioServiceState
  deriving DecidableEq, Repr

/-- `AudioRecordingManager.cleanup()`. -/
def managerCleanup (m : AudioRecordingManagerState) : AudioRecordingManagerState where
  isRecording := false
  processingRequest := m.processingRequest
  resourcesCleanedUp := true
  audioSamples := []
  recordingStartTime := none
  currentAnalyser := false
  svc := svcCleanup m.svc

/-! ## Reducer actions (`AppStateContext.tsx`) and the pause/resume flow
(`useRecording.ts`) -/

/-- The `ActionType.PAUSE_SESSION` reducer case: dispatch the
`PAUSE_SESSION` event, then force the operation state to `IDLE` (and drop
the analyser node) with a direct `updateState`. -/
def reducerPauseSession (st : AppState) : AppState :=
  updateState (dispatch st .pauseSession none) { emptyPayload with operationState := some .idle }

/-- The `ActionType.RESUME_SESSION` reducer case: dispatch the
`RESUME_SESSION` event; the queued `setTimeout` then dispatches
`START_COUNTDOWN` with countdown `3`. -/
def reducerResumeSession (st : AppState) : AppState :=
  dispatch (dispatch st .resumeSession none) .startCountdown
    (some { emptyPayload with countdown := some 3 })

/-- `useRecording.pauseRecording`: only while the operation state is
`RECORDING`, clean up the recording manager (releasing capture resources)
and dispatch the `PAUSE_SESSION` action. -/
def pauseRecording (st : AppState) (m : AudioRecordingManagerState) :
    AppState × AudioRecordingManagerState :=
  if st.operationState = .recording then (reducerPauseSession st, managerCleanup m)
  else (st, m)

theorem dispatch_startCountdown_p3 (st : AppState) :
    (dispatch st .startCountdown (some { emptyPayload with countdown := some 3 })).sessionState
      = (sessionTransitions st.sessionState .startCountdown).getD st.sessionState ∧
    (dispatch st .startCountdown (some { emptyPayload with countdown := some 3 })).operationState
      = (operationTransitions st.operationState .startCountdown).getD st.operationState ∧
    (dispatch st .startCountdown (some { emptyPayload with countdown := some 3 })).countdown = some 3 := by
  show (dispatchF 2 st _ _).sessionState = _ ∧ (dispatchF 2 st _ _).operationState = _ ∧
    (dispatchF 2 st _ _).countdown = some 3
  rw [dispatchF, if_neg (by simp)]
  have hh : handleSpecialEvents (fun s => dispatchF 1 s .completeCountdown none)
      (applyOperationStep (applySessionStep st .startCountdown) .startCountdown) .startCountdown
      (some { emptyPayload with countdown := some 3 })
      = { applyOperationStep (applySessionStep st .startCountdown) .startCountdown with
          countdown := some 3 } := by
    simp [handleSpecialEvents, handleSpecialSwitch, applyRestPayload, updateState, emptyPayload,
      Option.bind]
  rw [hh]
  have h1 := applySessionStep_axes st .startCountdown
  have h2 := applyOperationStep_axes (applySessionStep st .startCountdown) .startCountdown
  refine ⟨?_, ?_, ?_⟩
  · simp only [updateStatusMessage]
    show (applyOperationStep (applySessionStep st .startCountdown) .startCountdown).sessionState = _
    rw [h2.1, h1.1]
  · simp only [updateStatusMessage]
    show (applyOperationStep (applySessionStep st .startCountdown) .startCountdown).operationState = _
    rw [h2.2, h1.2]
  · simp only [updateStatusMessage]

/-- C6: pausing while Recording (session Active) forces the operation axis
to Idle, moves the session to Paused, and releases the capture resources;
a subsequent resume returns the session to Active and re-arms the
Preparing countdown at 3. -/
theorem pause_forces_idle_and_resume_rearms :
    ∀ (st : AppState) (m : AudioRecordingManagerState),
      st.sessionState = .active → st.operationState = .recording →
      (pauseRecording st m).1.operationState = .idle ∧
      (pauseRecording st m).1.sessionState = .paused ∧
      (pauseRecording st m).2.resourcesCleanedUp = true ∧
      (pauseRecording st m).2.svc.rtcActive = false ∧
      (reducerResumeSession (pauseRecording st m).1).sessionState = .active ∧
      (reducerResumeSession (pauseRecording st m).1).operationState = .preparing ∧
      (reducerResumeSession (pauseRecording st m).1).countdown = some 3 := by
  intro st m hs ho
  rw [pauseRecording, if_pos ho]
  have hpause : (reducerPauseSession st).sessionState = .paused ∧
      (reducerPauseSession st).operationState = .idle := by
    have hax := dispatch_none_axes st .pauseSession (by simp)
    rw [hs] at hax
    constructor
    · show (updateState _ _).sessionState = _
      simp [updateState, emptyPayload, hax.1, sessionTransitions]
    · show (updateState _ _).operationState = _
      simp [updateState, emptyPayload]
  have hax1 := dispatch_none_axes (reducerPauseSession st) .resumeSession (by simp)
  rw [hpause.1, hpause.2] at hax1
  simp only [sessionTransitions, operationTransitions, Option.getD] at hax1
  have hax2 := dispatch_startCountdown_p3 (dispatch (reducerPauseSession st) .resumeSession none)
  rw [hax1.1, hax1.2] at hax2
  simp only [sessionTransitions, operationTransitions, Option.getD] at hax2
  exact ⟨hpause.2, hpause.1, rfl, rfl, hax2.1, hax2.2.1, hax2.2.2⟩

/-- C6 (witness): the pause/resume round trip evaluated at a concrete
Active + Recording state. -/
theorem pause_forces_idle_and_resume_rearms_witness :
    ({ initialState with sessionState := .active, operationState := .recording } : AppState).sessionState = .active ∧
    (pauseRecording { initialState with sessionState := .active, operationState := .recording }
      (AudioRecordingManagerState.mk true false false [] none true ⟨true, []⟩)).1.operationState = .idle := by
  refine ⟨rfl, ?_⟩
  exact (pause_forces_idle_and_resume_rearms
    { initialState with sessionState := .active, operationState := .recording }
    (AudioRecordingManagerState.mk true false false [] none true ⟨true, []⟩) rfl rfl).1

/-! ## Translation service (`TranslationService.ts`) -/

structure TranslationResponse where
  translation : Option String
  transcription : Option String
  deriving DecidableEq, Repr

/-- The service's only piece of state: `private originalAudioBlob`. -/
structure TranslationServiceState where
  originalAudioBlob : Option Blob
  deriving DecidableEq, Repr

def charsStartWith : List Char → List Char → Bool
  | _, [] => true
  | [], _ :: _ => false
  | c :: cs, p :: ps => c = p && charsStartWith cs ps

def charsContain : List Char → List Char → Bool
  | [], pat => charsStartWith [] pat
  | c :: cs, pat => charsStartWith (c :: cs) pat || charsContain cs pat

/-- `s.includes(pat)`: `pat` occurs as a contiguous substring of `s`. -/
def strContainsSub (s pat : String) : Bool := charsContain s.toList pat.toList

/-- The audio-quality test on the caught error message:
`includes('audio') || includes('speech') || includes('transcription')`. -/
def isAudioQualityMessage (msg : String) : Bool :=
  strContainsSub msg "audio" || strContainsSub msg "speech" || strContainsSub msg "transcription"

/-- The `finally` block: the stored blob is cleared only on a retry call. -/
def finallyClear (svc : TranslationServiceState) (isRetry : Bool) : TranslationServiceState :=
  if isRetry then { originalAudioBlob := none } else svc

/-- `TranslationService.sendAudioForTranslation`, fuelled (the only
recursion is the single retry call, made with `isRetry = true`, which
cannot recurse again, so fuel 2 always suffices).  `backend` is the
`fetch` round trip as an oracle; the returned list records the blobs
submitted to the backend, in order.  On a non-retry call the method first
stores `audioBlob` into `originalAudioBlob`; the retry guard then compares
`audioBlob` with that same stored reference. -/
def sendAudioForTranslationF :
    Nat → TranslationServiceState → (Blob → Except String TranslationResponse) → Blob → Bool →
    Except String TranslationResponse × TranslationServiceState × List Blob
  | 0, svc, _, _, _ => (.error "", svc, [])
  | Nat.succ n, svc, backend, audioBlob, isRetry =>
    let svc1 := if isRetry = false then { originalAudioBlob := some audioBlob } else svc
    match backend audioBlob with
    | .ok r => (.ok r, finallyClear svc1 isRetry, [audioBlob])
    | .error errorMessage =>
      match svc1.originalAudioBlob with
      | some orig =>
        if isRetry = false ∧ audioBlob ≠ orig ∧ isAudioQualityMessage errorMessage = true then
          ((sendAudioForTranslationF n svc1 backend orig true).1,
           finallyClear (sendAudioForTranslationF n svc1 backend orig true).2.1 isRetry,
           audioBlob :: (sendAudioForTranslationF n svc1 backend orig true).2.2)
        else (.error errorMessage, finallyClear svc1 isRetry, [audioBlob])
      | none => (.error errorMessage, finallyClear svc1 isRetry, [audioBlob])

def sendAudioForTranslation (svc : TranslationServiceState)
    (backend : Blob → Except String TranslationResponse) (audioBlob : Blob) (isRetry : Bool) :
    Except String TranslationResponse × TranslationServiceState × List Blob :=
  sendAudioForTranslationF 2 svc backend audioBlob isRetry

/-- C1: the retry-with-original-audio branch is unreachable.  Every first
(non-retry) call submits exactly one request — the blob it was handed —
because the method has just stored that very blob as `originalAudioBlob`,
so the reference-inequality guard `audioBlob !== this.originalAudioBlob`
is always false; in particular, at the failing input (trimmed blob, backend
error mentioning audio) the error is rethrown with no retry, contradicting
the claimed retry-once-with-untrimmed-original behaviour. -/
theorem first_call_never_retries :
    (∀ (svc : TranslationServiceState) (backend : Blob → Except String TranslationResponse) (b : Blob),
      (sendAudioForTranslation svc backend b false).2.2 = [b]) ∧
    ((sendAudioForTranslation ⟨none⟩
        (fun _ => .error "HTTP error! status: 400, message: bad audio quality")
        ⟨1, 10⟩ false).1
      = .error "HTTP error! status: 400, message: bad audio quality" ∧
     (sendAudioForTranslation ⟨none⟩
        (fun _ => .error "HTTP error! status: 400, message: bad audio quality")
        ⟨1, 10⟩ false).2.2 = [⟨1, 10⟩] ∧
     isAudioQualityMessage "HTTP error! status: 400, message: bad audio quality" = true) := by
  constructor
  · intro svc backend b
    show (sendAudioForTranslationF 2 svc backend b false).2.2 = [b]
    rw [sendAudioForTranslationF]
    cases hb : backend b with
    | ok r => simp [hb]
    | error msg => simp [hb]
  · exact ⟨rfl, rfl, by decide⟩

/-! ## Speech validity classifier (`AudioRecordingManager.hasValidAudioContent`)

The recorded sample log is a list of buffers (`Float32Array` snapshots);
the analysis loop walks them in order.  `Date.now()` and
`recordingStartTime` enter as explicit parameters. -/

/-- All samples of the log, in loop order. -/
def allSamples (bufs : List (List ℚ)) : List ℚ := bufs.flatten

/-- `sumOfSquares` accumulated over the loop. -/
def sumOfSquares (l : List ℚ) : ℚ := (l.map (fun s => s * s)).sum

/-- `peakVolume = max over |sample|`, starting from 0. -/
def peakVolume (l : List ℚ) : ℚ := l.foldl (fun m s => max m |s|) 0

/-- `significantSamples`: samples with `|amplitude| > 0.005`. -/
def significantSamples (l : List ℚ) : ℕ := (l.filter (fun s => |s| > 5 / 1000)).length

/-- `(prevSample < 0 && sampleValue >= 0) || (prevSample >= 0 && sampleValue < 0)`. -/
def isZeroCrossing (prev s : ℚ) : Prop := (prev < 0 ∧ 0 ≤ s) ∨ (0 ≤ prev ∧ s < 0)

instance (prev s : ℚ) : Decidable (isZeroCrossing prev s) := by
  unfold isZeroCrossing
  infer_instance

/-- Zero crossings counted over the flattened log; `prevSample` starts at
`0` and is carried across buffer boundaries. -/
def zeroCrossingsAux : ℚ → List ℚ → ℕ
  | _, [] => 0
  | prev, s :: rest => (if isZeroCrossing prev s then 1 else 0) + zeroCrossingsAux s rest

def zeroCrossings (bufs : List (List ℚ)) : ℕ := zeroCrossingsAux 0 (allSamples bufs)

/-- One step of the flat-region scan.  State is
`(consecutiveFlats, maxConsecutiveFlats)`; `prev` is `buffer[i-1]` when
`i > 0` inside the current buffer and `none` at `i = 0`, where the `else`
branch flushes the running count. -/
def flatStep (prev : Option ℚ) (s : ℚ) (acc : ℕ × ℕ) : ℕ × ℕ :=
  match prev with
  | some p => if |s - p| < 1 / 10000 then (acc.1 + 1, acc.2) else (0, max acc.2 acc.1)
  | none => (0, max acc.2 acc.1)

def flatScanBuf : Option ℚ → ℕ × ℕ → List ℚ → ℕ × ℕ
  | _, acc, [] => acc
  | prev, acc, s :: rest => flatScanBuf (some s) (flatStep prev s acc) rest

def flatScan (bufs : List (List ℚ)) : ℕ × ℕ :=
  bufs.foldl (fun acc buf => flatScanBuf none acc buf) (0, 0)

/-- `maxConsecutiveFlats` as the loop leaves it: a run still open when the
log ends is never flushed into the maximum. -/
def maxConsecutiveFlats (bufs : List (List ℚ)) : ℕ := (flatScan bufs).2

/-- Samples with `|s| > 0.001` ("non-zero"). -/
def nonZeroSamples (l : List ℚ) : List ℚ := l.filter (fun s => |s| > 1 / 1000)

/-- `dynamicRange`: the source sorts the non-negligible samples by absolute
value and divides the last entry by the first (the max and min of the
absolute values), guarding a zero denominator with `|| 0.001`; it stays `0`
when there are no such samples. -/
def dynamicRange (l : List ℚ) : ℚ :=
  match nonZeroSamples l with
  | [] => 0
  | x :: xs =>
    (xs.foldl (fun m s => max m |s|) |x|) /
      (if xs.foldl (fun m s => min m |s|) |x| = 0 then 1 / 1000
       else xs.foldl (fun m s => min m |s|) |x|)

/-- `recordingDuration = recordingStartTime ? Date.now() - recordingStartTime : 0` (ms). -/
def recordingDuration (recordingStartTime : Option ℚ) (now : ℚ) : ℚ :=
  match recordingStartTime with
  | some t => now - t
  | none => 0

/-- The volume/zero-crossing/flatness/dynamic-range decision taken after
the duration gate.  `rms > threshold` is rendered squared
(`sumOfSquares/n > threshold²`), exact for the non-negative thresholds the
code uses. -/
def validSignalChecks (audioSamples : List (List ℚ)) (audioThreshold : ℚ) : Bool :=
  if (allSamples audioSamples).length = 0 then false
  else
    decide
      ((sumOfSquares (allSamples audioSamples) / ((allSamples audioSamples).length : ℚ)
          > audioThreshold ^ 2 ∨
        (peakVolume (allSamples audioSamples) > audioThreshold * 3 ∧
         (significantSamples (allSamples audioSamples) : ℚ) / ((allSamples audioSamples).length : ℚ)
           > 2 / 100)) ∧
       ((zeroCrossings audioSamples : ℚ) / ((allSamples audioSamples).length : ℚ) > 5 / 1000 ∧
        (zeroCrossings audioSamples : ℚ) / ((allSamples audioSamples).length : ℚ) < 15 / 100) ∧
       ((maxConsecutiveFlats audioSamples : ℚ) / ((allSamples audioSamples).length : ℚ) < 1 / 10 ∧
        dynamicRange (allSamples audioSamples) > 2))

/-- `AudioRecordingManager.hasValidAudioContent`.  Defaults:
`audioThreshold = 0.01`, `minimumRecordingMs = 750`. -/
def hasValidAudioContent (audioSamples : List (List ℚ)) (recordingStartTime : Option ℚ)
    (now : ℚ) (audioThreshold : ℚ) (minimumRecordingMs : ℚ) : Bool :=
  if audioSamples.length = 0 then false
  else if recordingDuration recordingStartTime now < minimumRecordingMs then false
  else validSignalChecks audioSamples audioThreshold

/-- C4 (counterexample): a 20-sample, 1-second log with a zero-crossing
rate of exactly 0.15.  The claim's closed interval `[0.005, 0.15]` admits
it (and all its other conditions hold), but the code's strict comparison
`zeroCrossingRate < 0.15` rejects it. -/
def zcrBoundaryLog : List (List ℚ) :=
  [[5/100, 6/100, 7/100, 8/100, 9/100, -10/100, -11/100, -12/100, -13/100, -14/100,
    15/100, 16/100, 17/100, 18/100, 19/100, -20/100, -21/100, -22/100, -23/100, -24/100]]

theorem classifier_rejects_zcr_boundary :
    hasValidAudioContent zcrBoundaryLog (some 0) 1000 (1 / 100) 750 = false ∧
    (5 / 1000 ≤ (zeroCrossings zcrBoundaryLog : ℚ) / ((allSamples zcrBoundaryLog).length : ℚ) ∧
     (zeroCrossings zcrBoundaryLog : ℚ) / ((allSamples zcrBoundaryLog).length : ℚ) ≤ 15 / 100) ∧
    750 ≤ recordingDuration (some 0) 1000 ∧
    sumOfSquares (allSamples zcrBoundaryLog) / ((allSamples zcrBoundaryLog).length : ℚ)
      > (1 / 100) ^ 2 ∧
    (maxConsecutiveFlats zcrBoundaryLog : ℚ) / ((allSamples zcrBoundaryLog).length : ℚ) < 1 / 10 ∧
    dynamicRange (allSamples zcrBoundaryLog) > 2 := by
  have hlen : (allSamples zcrBoundaryLog).length = 20 := by
    norm_num [allSamples, zcrBoundaryLog]
  have hzcr : zeroCrossings zcrBoundaryLog = 3 := by
    norm_num [zeroCrossings, zeroCrossingsAux, isZeroCrossing, allSamples, zcrBoundaryLog]
  have hflat : maxConsecutiveFlats zcrBoundaryLog = 0 := by
    norm_num [maxConsecutiveFlats, flatScan, flatScanBuf, flatStep, zcrBoundaryLog, List.foldl,
      abs_of_nonneg, abs_of_nonpos]
  have hdyn : dynamicRange (allSamples zcrBoundaryLog) = 24 / 5 := by
    norm_num [dynamicRange, nonZeroSamples, allSamples, zcrBoundaryLog, List.foldl,
      abs_of_nonneg, abs_of_nonpos]
  refine ⟨?_, ⟨?_, ?_⟩, ?_, ?_, ?_, ?_⟩
  · unfold hasValidAudioContent validSignalChecks
    rw [if_neg (by norm_num [zcrBoundaryLog]),
      if_neg (by norm_num [recordingDuration]),
      if_neg (by rw [hlen]; norm_num)]
    apply decide_eq_false
    rintro ⟨-, hz, -⟩
    rw [hzcr, hlen] at hz
    norm_num at hz
  · rw [hzcr, hlen]
    norm_num
  · rw [hzcr, hlen]
    norm_num
  · norm_num [recordingDuration]
  · have hsum : sumOfSquares (allSamples zcrBoundaryLog) = 487 / 1000 := by
      norm_num [sumOfSquares, allSamples, zcrBoundaryLog]
    rw [hsum, hlen]
    norm_num
  · rw [hflat, hlen]
    norm_num
  · rw [hdyn]
    norm_num

/-- C4 (amended): with the default thresholds, the classifier accepts
exactly when the log is non-empty, the wall-clock elapsed duration is at
least 750 ms, the volume check holds (mean square > 0.01², or peak > 0.03
with more than 2 % significant samples), the zero-crossing rate lies
strictly between 0.005 and 0.15, the flat-run metric as the loop computes
it (a run still open at the end of the log is not flushed) is below 10 %,
and the dynamic range exceeds 2. -/
theorem hasValidAudioContent_iff :
    ∀ (bufs : List (List ℚ)) (start : Option ℚ) (now : ℚ),
      hasValidAudioContent bufs start now (1 / 100) 750 = true ↔
      (bufs.length ≠ 0 ∧ (allSamples bufs).length ≠ 0 ∧
       750 ≤ recordingDuration start now ∧
       (sumOfSquares (allSamples bufs) / ((allSamples bufs).length : ℚ) > (1 / 100) ^ 2 ∨
         (peakVolume (allSamples bufs) > (1 / 100) * 3 ∧
          (significantSamples (allSamples bufs) : ℚ) / ((allSamples bufs).length : ℚ) > 2 / 100)) ∧
       ((zeroCrossings bufs : ℚ) / ((allSamples bufs).length : ℚ) > 5 / 1000 ∧
        (zeroCrossings bufs : ℚ) / ((allSamples bufs).length : ℚ) < 15 / 100) ∧
       (maxConsecutiveFlats bufs : ℚ) / ((allSamples bufs).length : ℚ) < 1 / 10 ∧
       dynamicRange (allSamples bufs) > 2) := by
  intro bufs start now
  unfold hasValidAudioContent validSignalChecks
  by_cases h0 : bufs.length = 0
  · simp [h0]
  · rw [if_neg h0]
    by_cases hd : recordingDuration start now < 750
    · rw [if_pos hd]
      simp only [Bool.false_eq_true, false_iff]
      rintro ⟨-, -, hd', -⟩
      exact absurd hd (not_lt.mpr hd')
    · rw [if_neg hd]
      by_cases hn : (allSamples bufs).length = 0
      · simp [hn]
      · rw [if_neg hn]
        rw [decide_eq_true_iff]
        constructor
        · rintro ⟨hv, hz, hf⟩
          exact ⟨h0, hn, not_lt.mp hd, hv, hz, hf⟩
        · rintro ⟨-, -, -, hv, hz, hf⟩
          exact ⟨hv, hz, hf⟩

/-- C9 (counterexample): the classifier reads the wall clock.  The same
20-sample log (zero-crossing rate 0.1, all signal checks passing) is
accepted when 1000 ms have elapsed and rejected when only 400 ms have —
identical `RawSampleLog`, different `Date.now()`. -/
def speechLikeLog : List (List ℚ) :=
  [[5/100, 6/100, 7/100, 8/100, 9/100, 10/100, 11/100, -12/100, -13/100, -14/100,
    -15/100, -16/100, -17/100, 18/100, 19/100, 20/100, 21/100, 22/100, 23/100, 24/100]]

theorem classifier_wall_clock_dependence :
    hasValidAudioContent speechLikeLog (some 0) 1000 (1 / 100) 750 = true ∧
    hasValidAudioContent speechLikeLog (some 0) 400 (1 / 100) 750 = false := by
  have hlen : (allSamples speechLikeLog).length = 20 := by
    norm_num [allSamples, speechLikeLog]
  have hzcr : zeroCrossings speechLikeLog = 2 := by
    norm_num [zeroCrossings, zeroCrossingsAux, isZeroCrossing, allSamples, speechLikeLog]
  have hflat : maxConsecutiveFlats speechLikeLog = 0 := by
    norm_num [maxConsecutiveFlats, flatScan, flatScanBuf, flatStep, speechLikeLog, List.foldl,
      abs_of_nonneg, abs_of_nonpos]
  have hdyn : dynamicRange (allSamples speechLikeLog) = 24 / 5 := by
    norm_num [dynamicRange, nonZeroSamples, allSamples, speechLikeLog, List.foldl,
      abs_of_nonneg, abs_of_nonpos]
  have hsum : sumOfSquares (allSamples speechLikeLog) = 487 / 1000 := by
    norm_num [sumOfSquares, allSamples, speechLikeLog]
  constructor
  · unfold hasValidAudioContent validSignalChecks
    rw [if_neg (by norm_num [speechLikeLog]),
      if_neg (by norm_num [recordingDuration]),
      if_neg (by rw [hlen]; norm_num)]
    rw [decide_eq_true_iff]
    refine ⟨Or.inl ?_, ⟨?_, ?_⟩, ?_, ?_⟩
    · rw [hsum, hlen]
      norm_num
    · rw [hzcr, hlen]
      norm_num
    · rw [hzcr, hlen]
      norm_num
    · rw [hflat, hlen]
      norm_num
    · rw [hdyn]
      norm_num
  · unfold hasValidAudioContent
    rw [if_neg (by norm_num [speechLikeLog]), if_pos (by norm_num [recordingDuration])]

/-- C9 (amended): the decision is a pure function of the sample log, the
configured thresholds, and the elapsed duration — and it depends on the
wall clock only through the duration cutoff: for any two evaluation
instants whose elapsed durations both reach the configured minimum, the
decision over an identical `RawSampleLog` is identical. -/
theorem classifier_deterministic_past_duration_gate :
    ∀ (bufs : List (List ℚ)) (start : Option ℚ) (now1 now2 threshold minMs : ℚ),
      minMs ≤ recordingDuration start now1 →
      minMs ≤ recordingDuration start now2 →
      hasValidAudioContent bufs start now1 threshold minMs
        = hasValidAudioContent bufs start now2 threshold minMs := by
  intro bufs start now1 now2 threshold minMs h1 h2
  unfold hasValidAudioContent
  rw [if_neg (not_lt.mpr h1), if_neg (not_lt.mpr h2)]

/-- C9 (witness): the amended determinism at the `speechLikeLog` input and
two instants past the gate. -/
theorem classifier_deterministic_past_duration_gate_witness :
    hasValidAudioContent speechLikeLog (some 0) 1000 (1 / 100) 750
      = hasValidAudioContent speechLikeLog (some 0) 2000 (1 / 100) 750 :=
  classifier_deterministic_past_duration_gate speechLikeLog (some 0) 1000 2000 (1 / 100) 750
    (by norm_num [recordingDuration]) (by norm_num [recordingDuration])

/-! ## Silence detector (`SilenceDetectionService.ts`)

One detection cycle as a transition system.  A `sample` event is one pass
of the `checkSilence` loop past its 100 ms gate, carrying the computed
normalized RMS; a `tick` event is one firing of the armed 1-second
`silenceCountdownInterval`.  `countdown = some c` models the armed
timers (`silenceTimeout`/`silenceCountdownInterval` are set and cleared
together) together with the interval closure's local `countdown` value;
ticks can only occur while armed. -/

def SILENCE_THRESHOLD : ℚ := 5 / 100
def BUFFER_SIZE : ℕ := 30
def SILENCE_DURATION_TICKS : Int := 3

structure SDState where
  volumeBuffer : List ℚ
  countdown : Option Int
  isActive : Bool
  deriving DecidableEq, Repr

/-- The state `startDetection` establishes. -/
def sdInit : SDState where
  volumeBuffer := []
  countdown := none
  isActive := true

inductive SDEvent where
  | sample (rms : ℚ)
  | tick
  deriving DecidableEq, Repr

inductive SDEmit where
  | silenceStart (n : Int)
  | soundResumed
  | silenceComplete
  deriving DecidableEq, Repr

/-- Push into the rolling buffer, evicting the oldest entry
(`push` then `shift` when the length exceeds `BUFFER_SIZE`). -/
def pushVolume (buf : List ℚ) (v : ℚ) : List ℚ :=
  if BUFFER_SIZE < (buf ++ [v]).length then (buf ++ [v]).drop 1 else buf ++ [v]

def sdStep (st : SDState) : SDEvent → SDState × List SDEmit
  | .sample v =>
    if st.isActive = false then (st, [])
    else if (pushVolume st.volumeBuffer v).length = BUFFER_SIZE ∧
        (pushVolume st.volumeBuffer v).sum / ((pushVolume st.volumeBuffer v).length : ℚ)
          < SILENCE_THRESHOLD then
      if st.countdown = none then
        ({ volumeBuffer := pushVolume st.volumeBuffer v,
           countdown := some SILENCE_DURATION_TICKS,
           isActive := st.isActive },
         [.silenceStart SILENCE_DURATION_TICKS])
      else ({ st with volumeBuffer := pushVolume st.volumeBuffer v }, [])
    else
      ({ volumeBuffer := pushVolume st.volumeBuffer v, countdown := none,
         isActive := st.isActive },
       [.soundResumed])
  | .tick =>
    match st.countdown with
    | none => (st, [])
    | some c =>
      if c - 1 ≤ 0 then
        ({ st with countdown := none, isActive := false },
         [.silenceStart (c - 1), .silenceComplete])
      else
        ({ st with countdown := some (c - 1) }, [.silenceStart (c - 1)])

def sdRun : SDState → List SDEvent → SDState × List SDEmit
  | st, [] => (st, [])
  | st, e :: es =>
    ((sdRun (sdStep st e).1 es).1, (sdStep st e).2 ++ (sdRun (sdStep st e).1 es).2)

/-- A finished cycle: the loop is halted and no timer is armed. -/
def sdDead (st : SDState) : Prop := st.isActive = false ∧ st.countdown = none

theorem sdStep_dead (st : SDState) (e : SDEvent) (h : sdDead st) : sdStep st e = (st, []) := by
  obtain ⟨ha, hc⟩ := h
  cases e with
  | sample v => simp [sdStep, ha]
  | tick => simp [sdStep, hc]

theorem sdStep_complete_count (st : SDState) (e : SDEvent) :
    ((sdStep st e).2.count SDEmit.silenceComplete ≤ 1) ∧
    ((sdStep st e).2.count SDEmit.silenceComplete = 1 → sdDead (sdStep st e).1) := by
  cases e with
  | sample v =>
    rw [sdStep]
    split_ifs <;> simp [sdDead, List.count]
  | tick =>
    cases hc : st.countdown with
    | none => simp [sdStep, hc]
    | some c =>
      by_cases hz : c - 1 ≤ 0
      · simp [sdStep, hc, hz, List.count, sdDead]
      · simp [sdStep, hc, hz, List.count]

theorem sdRun_complete_bound (evts : List SDEvent) :
    ∀ st : SDState,
      (sdDead st → (sdRun st evts).2.count SDEmit.silenceComplete = 0) ∧
      (sdRun st evts).2.count SDEmit.silenceComplete ≤ 1 := by
  induction evts with
  | nil => intro st; simp [sdRun]
  | cons e es ih =>
    intro st
    have hstep := sdStep_complete_count st e
    have hnext := ih (sdStep st e).1
    constructor
    · intro hd
      rw [sdRun]
      rw [sdStep_dead st e hd]
      simp only [List.count_append]
      have : (sdRun st es).2.count SDEmit.silenceComplete = 0 := (ih st).1 hd
      simpa using this
    · rw [sdRun]
      simp only [List.count_append]
      rcases Nat.lt_or_ge ((sdStep st e).2.count SDEmit.silenceComplete) 1 with h1 | h1
      · have h0 : (sdStep st e).2.count SDEmit.silenceComplete = 0 := Nat.lt_one_iff.mp h1
        rw [h0]
        simpa using hnext.2
      · have heq : (sdStep st e).2.count SDEmit.silenceComplete = 1 :=
          Nat.le_antisymm hstep.1 h1
        have hdead := hstep.2 heq
        rw [heq, hnext.1 hdead]

/-- C5: within one detection cycle — (1) the countdown is armed, at 3,
only by a sample that leaves the rolling buffer full with mean below 0.05
while detection is live and no timer is armed; (2) an armed tick emits
silence-countdown(c−1), clears the timers at 0 (emitting silence-elapsed)
and otherwise stores exactly c−1; (3) the stored countdown never increases
(no upward re-arm); (4) a sample that falsifies the silence condition
clears the timers and emits sound-active; (5) silence-elapsed fires at
most once over every event sequence of the cycle. -/
theorem silence_countdown_discipline :
    (∀ (st : SDState) (e : SDEvent) (c : Int),
        st.countdown = none → (sdStep st e).1.countdown = some c →
        c = 3 ∧ st.isActive = true ∧ ∃ v, e = .sample v ∧
          (pushVolume st.volumeBuffer v).length = BUFFER_SIZE ∧
          (pushVolume st.volumeBuffer v).sum / ((pushVolume st.volumeBuffer v).length : ℚ)
            < SILENCE_THRESHOLD) ∧
    (∀ (st : SDState) (c : Int), st.countdown = some c →
        (sdStep st .tick).1.countdown = (if c - 1 ≤ 0 then none else some (c - 1)) ∧
        SDEmit.silenceStart (c - 1) ∈ (sdStep st .tick).2 ∧
        (c - 1 ≤ 0 → SDEmit.silenceComplete ∈ (sdStep st .tick).2)) ∧
    (∀ (st : SDState) (e : SDEvent) (c c' : Int),
        st.countdown = some c → (sdStep st e).1.countdown = some c' →
        c' = c ∨ c' = c - 1) ∧
    (∀ (st : SDState) (v : ℚ),
        st.isActive = true →
        ¬((pushVolume st.volumeBuffer v).length = BUFFER_SIZE ∧
          (pushVolume st.volumeBuffer v).sum / ((pushVolume st.volumeBuffer v).length : ℚ)
            < SILENCE_THRESHOLD) →
        (sdStep st (.sample v)).1.countdown = none ∧
        SDEmit.soundResumed ∈ (sdStep st (.sample v)).2) ∧
    (∀ evts : List SDEvent, (sdRun sdInit evts).2.count SDEmit.silenceComplete ≤ 1) := by
  refine ⟨?_, ?_, ?_, ?_, fun evts => (sdRun_complete_bound evts sdInit).2⟩
  · intro st e c hnone harm
    cases e with
    | sample v =>
      by_cases ha : st.isActive = false
      · rw [sdStep] at harm
        rw [if_pos ha] at harm
        rw [hnone] at harm
        exact absurd harm (by simp)
      · by_cases hcond : (pushVolume st.volumeBuffer v).length = BUFFER_SIZE ∧
            (pushVolume st.volumeBuffer v).sum / ((pushVolume st.volumeBuffer v).length : ℚ)
              < SILENCE_THRESHOLD
        · have hc2 : (pushVolume st.volumeBuffer v).sum / (BUFFER_SIZE : ℚ) < SILENCE_THRESHOLD := by
            have h2 := hcond.2
            rwa [hcond.1] at h2
          have hval : (sdStep st (.sample v)).1.countdown = some SILENCE_DURATION_TICKS := by
            simp [sdStep, ha, hcond.1, hc2, hnone]
          rw [hval] at harm
          refine ⟨?_, ?_, v, rfl, hcond.1, hcond.2⟩
          · have h3 := Option.some_inj.mp harm
            simpa [SILENCE_DURATION_TICKS] using h3.symm
          · cases hb : st.isActive with
            | true => rfl
            | false => exact absurd hb ha
        · have hval : (sdStep st (.sample v)).1.countdown = none := by
            rw [sdStep, if_neg ha, if_neg hcond]
          rw [hval] at harm
          exact absurd harm (by simp)
    | tick =>
      have hval : (sdStep st .tick).1.countdown = none := by
        simp [sdStep, hnone]
      rw [hval] at harm
      exact absurd harm (by simp)
  · intro st c hc
    by_cases hz : c - 1 ≤ 0
    · refine ⟨?_, ?_, fun _ => ?_⟩ <;> simp [sdStep, hc, hz]
    · refine ⟨?_, ?_, fun h => absurd h hz⟩ <;> simp [sdStep, hc, hz]
  · intro st e c c' hc harm
    cases e with
    | sample v =>
      by_cases ha : st.isActive = false
      · rw [sdStep] at harm
        rw [if_pos ha] at harm
        rw [hc] at harm
        exact Or.inl (Option.some_inj.mp harm).symm
      · by_cases hcond : (pushVolume st.volumeBuffer v).length = BUFFER_SIZE ∧
            (pushVolume st.volumeBuffer v).sum / ((pushVolume st.volumeBuffer v).length : ℚ)
              < SILENCE_THRESHOLD
        · have hne : ¬ st.countdown = none := by simp [hc]
          have hc2 : (pushVolume st.volumeBuffer v).sum / (BUFFER_SIZE : ℚ) < SILENCE_THRESHOLD := by
            have h2 := hcond.2
            rwa [hcond.1] at h2
          have hval : (sdStep st (.sample v)).1.countdown = some c := by
            simp [sdStep, ha, hcond.1, hc2, hne, hc]
          rw [hval] at harm
          exact Or.inl (Option.some_inj.mp harm).symm
        · have hval : (sdStep st (.sample v)).1.countdown = none := by
            rw [sdStep, if_neg ha, if_neg hcond]
          rw [hval] at harm
          exact absurd harm (by simp)
    | tick =>
      by_cases hz : c - 1 ≤ 0
      · have hval : (sdStep st .tick).1.countdown = none := by simp [sdStep, hc, hz]
        rw [hval] at harm
        exact absurd harm (by simp)
      · have hval : (sdStep st .tick).1.countdown = some (c - 1) := by simp [sdStep, hc, hz]
        rw [hval] at harm
        exact Or.inr (Option.some_inj.mp harm).symm
  · intro st v ha hcond
    constructor <;> simp [sdStep, ha, hcond]

/-- C5 (witness): the discipline at concrete inputs — an armed tick from
countdown 3 stores 2, and Scenario A's trace (30 zero samples, then three
ticks) emits silence-elapsed at most once. -/
theorem silence_countdown_discipline_witness :
    (((sdStep { volumeBuffer := [], countdown := some 3, isActive := true } SDEvent.tick).1.countdown =
        if 3 - 1 ≤ 0 then none else some (3 - 1)) ∧
      SDEmit.silenceStart (3 - 1) ∈
        (sdStep { volumeBuffer := [], countdown := some 3, isActive := true } SDEvent.tick).2 ∧
      ((3 : Int) - 1 ≤ 0 →
        SDEmit.silenceComplete ∈
          (sdStep { volumeBuffer := [], countdown := some 3, isActive := true } SDEvent.tick).2)) ∧
    List.count SDEmit.silenceComplete
      (sdRun sdInit (List.replicate 30 (SDEvent.sample 0)
        ++ [SDEvent.tick, SDEvent.tick, SDEvent.tick])).2 ≤ 1 :=
  ⟨silence_countdown_discipline.2.1 ⟨[], some 3, true⟩ 3 rfl,
   silence_countdown_discipline.2.2.2.2
     (List.replicate 30 (SDEvent.sample 0) ++ [SDEvent.tick, SDEvent.tick, SDEvent.tick])⟩

/-! ## Stopping a recording (`AudioService.stopRecording`,
`AudioRecordingManager.stopRecording`)

`rtcBlob` is the blob `RecordRTC.getBlob()` hands back (`none` when the
recorder produced nothing), `combinedId` the identity of the fallback
`new Blob(audioChunks)`, and `speechDetected` the answer of the
real-time speech-detection query.  The returned `Bool` records whether the
underlying recorder's stop path was invoked at all. -/

/-- `AudioService.stopRecording`: rejects when no recorder is active;
otherwise resolves with the recorder blob when non-empty, falls back to the
combined chunk blob, or rejects — cleaning up in each of those paths. -/
def svcStopRecording (svc : AudioServiceState) (rtcBlob : Option Blob) (combinedId : Nat) :
    Except Unit Blob × AudioServiceState :=
  if svc.rtcActive = false then (.error (), svc)
  else
    match rtcBlob with
    | some b =>
      if 0 < b.size then (.ok b, svcCleanup svc)
      else
        if svc.audioChunks.length > 0 ∧ 0 < (svc.audioChunks.map (·.size)).sum then
          (.ok ⟨combinedId, (svc.audioChunks.map (·.size)).sum⟩, svcCleanup svc)
        else (.error (), svcCleanup svc)
    | none =>
        if svc.audioChunks.length > 0 ∧ 0 < (svc.audioChunks.map (·.size)).sum then
          (.ok ⟨combinedId, (svc.audioChunks.map (·.size)).sum⟩, svcCleanup svc)
        else (.error (), svcCleanup svc)

/-- The `finally` block of `AudioRecordingManager.stopRecording`. -/
def finalizeStop (m : AudioRecordingManagerState) : AudioRecordingManagerState :=
  { m with audioSamples := [], recordingStartTime := none, processingRequest := false }

/-- `AudioRecordingManager.stopRecording`. -/
def stopRecording (m : AudioRecordingManagerState) (rtcBlob : Option Blob) (combinedId : Nat)
    (speechDetected : Bool) : Option Blob × AudioRecordingManagerState × Bool :=
  if m.isRecording = false ∧ m.svc.rtcActive = false then (none, m, false)
  else if m.processingRequest = true then (none, m, false)
  else
    match svcStopRecording m.svc rtcBlob combinedId with
    | (.error _, svc') =>
      (none,
       finalizeStop { m with isRecording := false, processingRequest := true, svc := svc' },
       true)
    | (.ok b, svc') =>
      if b.size = 0 then
        (none,
         finalizeStop { m with isRecording := false, processingRequest := true, svc := svc' },
         true)
      else if speechDetected then
        (some b,
         finalizeStop { m with isRecording := false, processingRequest := true, svc := svc' },
         true)
      else
        (none,
         finalizeStop { m with isRecording := false, processingRequest := true, svc := svc' },
         true)

/-- C10: `stopRecording` is re-entrancy safe — called while neither the
manager flag nor the audio service reports an active recording, or while
another start/stop request is still being processed, it returns `null`,
leaves the manager and audio-service state untouched, and never reaches
the underlying recorder. -/
theorem stopRecording_reentrancy_safe :
    ∀ (m : AudioRecordingManagerState) (rtcBlob : Option Blob) (combinedId : Nat)
      (speechDetected : Bool),
      (m.isRecording = false ∧ m.svc.rtcActive = false) ∨ m.processingRequest = true →
      stopRecording m rtcBlob combinedId speechDetected = (none, m, false) := by
  intro m rtcBlob combinedId speechDetected h
  by_cases h1 : m.isRecording = false ∧ m.svc.rtcActive = false
  · rw [stopRecording, if_pos h1]
  · rcases h with h | h2
    · exact absurd h h1
    · rw [stopRecording, if_neg h1, if_pos h2]

/-- C10 (witness): a duplicate stop request on an idle manager. -/
theorem stopRecording_reentrancy_safe_witness :
    stopRecording (AudioRecordingManagerState.mk false false true [] none false ⟨false, []⟩)
        none 7 true
      = (none, AudioRecordingManagerState.mk false false true [] none false ⟨false, []⟩, false) :=
  stopRecording_reentrancy_safe
    (AudioRecordingManagerState.mk false false true [] none false ⟨false, []⟩)
    none 7 true (Or.inl ⟨rfl, rfl⟩)

/-! ## Boundary trimmer (`SilenceDetectionService.trimSilence`,
`findAudioBoundaries`, `extractAudioSegment`)

An `AudioBuffer` is its analysis channel (channel 0) plus the sample rate;
extraction copies every channel identically, so one channel suffices.
Chunk RMS comparisons `Math.sqrt (sum/len) < 0.045` are rendered squared.
The browser steps (metadata duration, decode, offline render/encode) are
the oracles of a `TrimEnv`. -/

def TRIM_THRESHOLD_SQ : ℚ := (45 / 1000) ^ 2
def MIN_TRIM_CHUNK_MS : ℕ := 250

structure ABuffer where
  samples : List ℚ
  sampleRate : ℕ
  deriving DecidableEq, Repr

def ABuffer.duration (b : ABuffer) : ℚ := (b.samples.length : ℚ) / (b.sampleRate : ℚ)

/-- `chunkSize = max(floor(sampleRate * 0.25), 1024)`. -/
def chunkSizeOf (sampleRate : ℕ) : ℕ := max (sampleRate * MIN_TRIM_CHUNK_MS / 1000) 1024

/-- Mean square of chunk `i` (`end = min(start + chunkSize, length)` is the
slice the `take` produces). -/
def chunkRmsSq (samples : List ℚ) (chunkSize i : ℕ) : ℚ :=
  sumOfSquares ((samples.drop (i * chunkSize)).take chunkSize) /
    (((samples.drop (i * chunkSize)).take chunkSize).length : ℚ)

/-- The per-chunk RMS array (`numChunks = floor(length / chunkSize)`). -/
def rmsValues (samples : List ℚ) (chunkSize : ℕ) : List ℚ :=
  (List.range (samples.length / chunkSize)).map (fun i => chunkRmsSq samples chunkSize i)

/-- Forward scan: index of the first chunk with RMS ≥ threshold
(`length` when none qualifies). -/
def forwardScan : List ℚ → ℕ
  | [] => 0
  | r :: rest => if r < TRIM_THRESHOLD_SQ then forwardScan rest + 1 else 0

/-- Backward scan from index `j` while `endChunk > startChunk` and the
chunk is quiet. -/
def backScanNat (rs : List ℚ) (s : ℕ) : ℕ → ℕ
  | 0 => 0
  | j + 1 =>
    if s < j + 1 ∧ rs.getD (j + 1) 0 < TRIM_THRESHOLD_SQ then backScanNat rs s j else j + 1

/-- `endChunk` (an integer: `-1` when there are no chunks at all). -/
def endChunkOf (rs : List ℚ) (s : ℕ) : Int :=
  if rs.length = 0 then -1 else (backScanNat rs s (rs.length - 1) : Int)

def startChunkOf (b : ABuffer) : ℕ :=
  forwardScan (rmsValues b.samples (chunkSizeOf b.sampleRate))

def endChunkB (b : ABuffer) : Int :=
  endChunkOf (rmsValues b.samples (chunkSizeOf b.sampleRate)) (startChunkOf b)

/-- `findAudioBoundaries`: chunk indices converted to time offsets. -/
def findAudioBoundaries (b : ABuffer) : ℚ × ℚ :=
  (max 0 (((startChunkOf b * chunkSizeOf b.sampleRate : ℕ) : ℚ) / (b.sampleRate : ℚ)),
   min b.duration
     ((((endChunkB b + 1) * (chunkSizeOf b.sampleRate : Int) : Int) : ℚ) / (b.sampleRate : ℚ)))

/-- `extractAudioSegment`: the sample range
`[floor(startTime·rate), min(ceil(endTime·rate), length))`. -/
def extractAudioSegment (b : ABuffer) (startTime endTime : ℚ) : ABuffer where
  samples :=
    (b.samples.drop (Int.toNat ⌊startTime * (b.sampleRate : ℚ)⌋)).take
      (min (Int.toNat ⌈endTime * (b.sampleRate : ℚ)⌉) b.samples.length -
        Int.toNat ⌊startTime * (b.sampleRate : ℚ)⌋)
  sampleRate := b.sampleRate

/-- The browser-side oracles of one `trimSilence` call. -/
structure TrimEnv where
  durationOfOriginal : Except Unit ℚ
  decoded : Option ABuffer
  encode : ABuffer → Except Unit Blob
  durationOfTrimmed : Blob → Except Unit ℚ

/-- `trimSilence`.  Every failure or bail-out path returns the original
blob; only a successful re-encode of the kept span with size ≥ 100 bytes
replaces it. -/
def trimSilence (env : TrimEnv) (audioBlob : Blob) : Blob :=
  if audioBlob.size = 0 then audioBlob
  else
    match env.durationOfOriginal with
    | .error _ => audioBlob
    | .ok originalDuration =>
      if originalDuration < 1 / 2 then audioBlob
      else
        match env.decoded with
        | none => audioBlob
        | some audioBuffer =>
          if (findAudioBoundaries audioBuffer).1 ≥ (findAudioBoundaries audioBuffer).2 then
            audioBlob
          else if (findAudioBoundaries audioBuffer).2 - (findAudioBoundaries audioBuffer).1
              < 1 / 10 then audioBlob
          else if originalDuration -
              ((findAudioBoundaries audioBuffer).2 - (findAudioBoundaries audioBuffer).1)
              < 1 / 2 then audioBlob
          else
            match env.encode (extractAudioSegment audioBuffer
                (findAudioBoundaries audioBuffer).1 (findAudioBoundaries audioBuffer).2) with
            | .error _ => audioBlob
            | .ok trimmedBlob =>
              if trimmedBlob.size = 0 then audioBlob
              else
                match env.durationOfTrimmed trimmedBlob with
                | .error _ => audioBlob
                | .ok _ => if trimmedBlob.size < 100 then audioBlob else trimmedBlob

/-- Exhaustive shape of a `trimSilence` result: the original blob, or the
re-encoded blob of the kept span after every gate passed. -/
theorem trimSilence_result (env : TrimEnv) (blob : Blob) :
    trimSilence env blob = blob ∨
    ∃ (buf : ABuffer) (d : ℚ) (tb : Blob),
      env.durationOfOriginal = .ok d ∧ env.decoded = some buf ∧
      ¬ (findAudioBoundaries buf).1 ≥ (findAudioBoundaries buf).2 ∧
      ¬ ((findAudioBoundaries buf).2 - (findAudioBoundaries buf).1 < 1 / 10) ∧
      ¬ (d - ((findAudioBoundaries buf).2 - (findAudioBoundaries buf).1) < 1 / 2) ∧
      env.encode (extractAudioSegment buf (findAudioBoundaries buf).1
        (findAudioBoundaries buf).2) = .ok tb ∧
      tb.size ≠ 0 ∧ ¬ tb.size < 100 ∧ trimSilence env blob = tb := by
  unfold trimSilence
  split
  · exact Or.inl rfl
  split
  · exact Or.inl rfl
  rename_i d hdur
  split
  · exact Or.inl rfl
  split
  · exact Or.inl rfl
  rename_i buf hdec
  split
  · exact Or.inl rfl
  rename_i h2
  split
  · exact Or.inl rfl
  rename_i h3
  split
  · exact Or.inl rfl
  rename_i h4
  split
  · exact Or.inl rfl
  rename_i tb henc
  split
  · exact Or.inl rfl
  rename_i h5
  split
  · exact Or.inl rfl
  split
  · exact Or.inl rfl
  rename_i h6
  exact Or.inr ⟨buf, d, tb, hdur, hdec, h2, h3, h4, henc, h5, h6, rfl⟩

theorem forwardScan_all (rs : List ℚ) (h : ∀ r ∈ rs, r < TRIM_THRESHOLD_SQ) :
    forwardScan rs = rs.length := by
  induction rs with
  | nil => rfl
  | cons r rest ih =>
    rw [forwardScan, if_pos (h r (List.mem_cons_self r rest))]
    rw [ih (fun x hx => h x (List.mem_cons_of_mem r hx))]
    rfl

theorem backScanNat_le (rs : List ℚ) (s j : ℕ) : backScanNat rs s j ≤ j := by
  induction j with
  | zero => exact Nat.le_refl 0
  | succ j ih =>
    rw [backScanNat]
    split
    · exact Nat.le_succ_of_le ih
    · exact Nat.le_refl _

theorem endChunkOf_succ_le (rs : List ℚ) (s : ℕ) :
    endChunkOf rs s + 1 ≤ (rs.length : Int) := by
  unfold endChunkOf
  split
  · rename_i h
    rw [h]
    norm_num
  · rename_i h
    have hle := backScanNat_le rs s (rs.length - 1)
    have hpos : 1 ≤ rs.length := Nat.one_le_iff_ne_zero.mpr h
    have : backScanNat rs s (rs.length - 1) + 1 ≤ rs.length := by omega
    exact_mod_cast this

/-- When the forward scan runs off the end (`startChunk = numChunks`), the
computed boundaries are degenerate (`startTime ≥ endTime`). -/
theorem boundaries_degenerate_of_start_full (b : ABuffer)
    (hs : startChunkOf b = (rmsValues b.samples (chunkSizeOf b.sampleRate)).length) :
    (findAudioBoundaries b).1 ≥ (findAudioBoundaries b).2 := by
  unfold findAudioBoundaries
  have he := endChunkOf_succ_le (rmsValues b.samples (chunkSizeOf b.sampleRate)) (startChunkOf b)
  have hrate : (0 : ℚ) ≤ (b.sampleRate : ℚ) := Nat.cast_nonneg _
  have hnum : (((endChunkB b + 1) * (chunkSizeOf b.sampleRate : Int) : Int) : ℚ)
      ≤ ((startChunkOf b * chunkSizeOf b.sampleRate : ℕ) : ℚ) := by
    have h1 : endChunkB b + 1 ≤ ((rmsValues b.samples (chunkSizeOf b.sampleRate)).length : Int) :=
      he
    have h2 : (endChunkB b + 1) * (chunkSizeOf b.sampleRate : Int)
        ≤ ((rmsValues b.samples (chunkSizeOf b.sampleRate)).length : Int)
          * (chunkSizeOf b.sampleRate : Int) :=
      mul_le_mul_of_nonneg_right h1 (Int.ofNat_nonneg _)
    rw [hs]
    push_cast
    exact_mod_cast h2
  have hdiv : ((((endChunkB b + 1) * (chunkSizeOf b.sampleRate : Int) : Int) : ℚ)
        / (b.sampleRate : ℚ))
      ≤ (((startChunkOf b * chunkSizeOf b.sampleRate : ℕ) : ℚ) / (b.sampleRate : ℚ)) := by
    rcases eq_or_lt_of_le hrate with h0 | h0
    · rw [← h0]
      simp
    · exact (div_le_div_right h0).mpr hnum
  calc min b.duration ((((endChunkB b + 1) * (chunkSizeOf b.sampleRate : Int) : Int) : ℚ)
        / (b.sampleRate : ℚ))
      ≤ (((endChunkB b + 1) * (chunkSizeOf b.sampleRate : Int) : Int) : ℚ) / (b.sampleRate : ℚ) :=
        min_le_right _ _
    _ ≤ ((startChunkOf b * chunkSizeOf b.sampleRate : ℕ) : ℚ) / (b.sampleRate : ℚ) := hdiv
    _ ≤ max 0 (((startChunkOf b * chunkSizeOf b.sampleRate : ℕ) : ℚ) / (b.sampleRate : ℚ)) :=
        le_max_right _ _

/-- When no chunk reaches the trim threshold, the computed boundaries are
degenerate (`startTime ≥ endTime`). -/
theorem boundaries_all_quiet (b : ABuffer)
    (hq : ∀ r ∈ rmsValues b.samples (chunkSizeOf b.sampleRate), r < TRIM_THRESHOLD_SQ) :
    (findAudioBoundaries b).1 ≥ (findAudioBoundaries b).2 :=
  boundaries_degenerate_of_start_full b (forwardScan_all _ hq)

/-- C7: `trimSilence` falls back to the original blob whenever the metadata
duration cannot be read, the decode fails, no chunk reaches the 0.045 RMS
threshold, the kept span is shorter than 0.1 s, the time saved is less
than 0.5 s, or the re-encode fails; it is a total function (never throws)
and never turns a non-empty input into an empty result. -/
theorem trimSilence_fallback_to_original :
    ∀ (env : TrimEnv) (blob : Blob),
      (env.durationOfOriginal = .error () → trimSilence env blob = blob) ∧
      (env.decoded = none → trimSilence env blob = blob) ∧
      (∀ buf : ABuffer, env.decoded = some buf →
        (∀ r ∈ rmsValues buf.samples (chunkSizeOf buf.sampleRate), r < TRIM_THRESHOLD_SQ) →
        trimSilence env blob = blob) ∧
      (∀ buf : ABuffer, env.decoded = some buf →
        (findAudioBoundaries buf).2 - (findAudioBoundaries buf).1 < 1 / 10 →
        trimSilence env blob = blob) ∧
      (∀ (buf : ABuffer) (d : ℚ), env.durationOfOriginal = .ok d → env.decoded = some buf →
        d - ((findAudioBoundaries buf).2 - (findAudioBoundaries buf).1) < 1 / 2 →
        trimSilence env blob = blob) ∧
      (∀ buf : ABuffer, env.decoded = some buf →
        env.encode (extractAudioSegment buf (findAudioBoundaries buf).1
          (findAudioBoundaries buf).2) = .error () →
        trimSilence env blob = blob) ∧
      (0 < blob.size → 0 < (trimSilence env blob).size) := by
  intro env blob
  rcases trimSilence_result env blob with hres |
    ⟨buf, d, tb, hdur, hdec, h2, h3, h4, henc, h5, h6, hres⟩
  · refine ⟨fun _ => hres, fun _ => hres, fun _ _ _ => hres, fun _ _ _ => hres,
      fun _ _ _ _ _ => hres, fun _ _ _ => hres, fun h => ?_⟩
    rw [hres]
    exact h
  · refine ⟨?_, ?_, ?_, ?_, ?_, ?_, ?_⟩
    · intro h
      rw [h] at hdur
      exact absurd hdur (by simp)
    · intro h
      rw [h] at hdec
      exact absurd hdec (by simp)
    · intro buf' hdec' hq
      rw [hdec'] at hdec
      have hb : buf = buf' := (Option.some_inj.mp hdec).symm
      subst hb
      exact absurd (boundaries_all_quiet buf hq) h2
    · intro buf' hdec' hspan
      rw [hdec'] at hdec
      have hb : buf = buf' := (Option.some_inj.mp hdec).symm
      subst hb
      exact absurd hspan h3
    · intro buf' d' hdur' hdec' hsaved
      rw [hdec'] at hdec
      have hb : buf = buf' := (Option.some_inj.mp hdec).symm
      subst hb
      rw [hdur'] at hdur
      have hd : d = d' := (Except.ok.injEq _ _ ▸ hdur : d' = d).symm
      subst hd
      exact absurd hsaved h4
    · intro buf' hdec' henc'
      rw [hdec'] at hdec
      have hb : buf = buf' := (Option.some_inj.mp hdec).symm
      subst hb
      rw [henc'] at henc
      exact absurd henc (by simp)
    · intro _
      rw [hres]
      omega

/-- C7 (witness): a failed decode falls back to the original, and the
result of a non-empty input stays non-empty. -/
theorem trimSilence_fallback_to_original_witness :
    (trimSilence ⟨.ok 2, none, fun _ => .error (), fun _ => .error ()⟩ ⟨3, 500⟩ = ⟨3, 500⟩) ∧
    (0 < (trimSilence ⟨.ok 2, none, fun _ => .error (), fun _ => .error ()⟩ ⟨3, 500⟩).size) :=
  ⟨(trimSilence_fallback_to_original ⟨.ok 2, none, fun _ => .error (), fun _ => .error ()⟩
      ⟨3, 500⟩).2.1 rfl,
   (trimSilence_fallback_to_original ⟨.ok 2, none, fun _ => .error (), fun _ => .error ()⟩
      ⟨3, 500⟩).2.2.2.2.2.2 (by norm_num)⟩

/-! ### Idempotence of the trimming pass (C8)

Re-running `findAudioBoundaries` on the extracted span finds the whole
span again: the span starts and ends on chunk boundaries whose chunks
reached the threshold, so the second run saves no time and `trimSilence`
bails out, returning its input. -/

theorem forwardScan_le (rs : List ℚ) : forwardScan rs ≤ rs.length := by
  induction rs with
  | nil => exact Nat.le_refl 0
  | cons r rest ih =>
    rw [forwardScan]
    split
    · exact Nat.succ_le_succ ih
    · exact Nat.zero_le _

theorem forwardScan_spec (rs : List ℚ) (h : forwardScan rs < rs.length) :
    ¬ rs.getD (forwardScan rs) 0 < TRIM_THRESHOLD_SQ := by
  induction rs with
  | nil => exact absurd h (by simp)
  | cons r rest ih =>
    by_cases hr : r < TRIM_THRESHOLD_SQ
    · rw [forwardScan, if_pos hr] at h ⊢
      have h' : forwardScan rest < rest.length := by
        simpa using h
      simpa using ih h'
    · rw [forwardScan, if_neg hr] at h ⊢
      simpa using hr

theorem backScanNat_ge (rs : List ℚ) (s j : ℕ) (h : s ≤ j) : s ≤ backScanNat rs s j := by
  induction j with
  | zero =>
    rw [backScanNat]
    exact h
  | succ j ih =>
    rw [backScanNat]
    split
    · rename_i hcond
      exact ih (Nat.lt_succ_iff.mp hcond.1)
    · exact h

theorem backScanNat_spec (rs : List ℚ) (s j : ℕ) (h : s ≤ j) :
    backScanNat rs s j = s ∨ ¬ rs.getD (backScanNat rs s j) 0 < TRIM_THRESHOLD_SQ := by
  induction j with
  | zero =>
    left
    rw [backScanNat]
    omega
  | succ j ih =>
    rw [backScanNat]
    split
    · rename_i hcond
      exact ih (Nat.lt_succ_iff.mp hcond.1)
    · rename_i hcond
      rw [Classical.not_and_iff_or_not_not] at hcond
      rcases hcond with hc | hc
      · left
        omega
      · right
        exact hc

theorem backScanNat_of_not_quiet (rs : List ℚ) (s j : ℕ)
    (h : ¬ rs.getD j 0 < TRIM_THRESHOLD_SQ) : backScanNat rs s j = j := by
  cases j with
  | zero => rfl
  | succ j =>
    rw [backScanNat, if_neg]
    intro hcond
    exact h hcond.2

theorem rmsValues_length (samples : List ℚ) (c : ℕ) :
    (rmsValues samples c).length = samples.length / c := by
  simp [rmsValues]

theorem rmsValues_getD (samples : List ℚ) (c i : ℕ) (h : i < samples.length / c) :
    (rmsValues samples c).getD i 0 = chunkRmsSq samples c i := by
  unfold rmsValues
  rw [List.getD_eq_getElem?_getD]
  rw [List.getElem?_map]
  rw [List.getElem?_range h]
  rfl

theorem forwardScan_eq_zero (rs : List ℚ) (hne : rs ≠ [])
    (h : ¬ rs.getD 0 0 < TRIM_THRESHOLD_SQ) : forwardScan rs = 0 := by
  cases rs with
  | nil => exact absurd rfl hne
  | cons r rest =>
    rw [forwardScan, if_neg]
    simpa using h

theorem chunkSizeOf_pos (rate : ℕ) : 0 < chunkSizeOf rate :=
  Nat.lt_of_lt_of_le (by norm_num) (Nat.le_max_right _ 1024)

theorem rate_pos_of_bounds (B : ABuffer)
    (h : (findAudioBoundaries B).1 < (findAudioBoundaries B).2) : 0 < B.sampleRate := by
  by_contra h0
  have hz : B.sampleRate = 0 := Nat.eq_zero_of_not_pos (by simpa using h0)
  simp [findAudioBoundaries, ABuffer.duration, hz] at h

/-- The backward-scan end chunk (a natural number in the non-degenerate
case). -/
def eChunk (B : ABuffer) : ℕ :=
  backScanNat (rmsValues B.samples (chunkSizeOf B.sampleRate)) (startChunkOf B)
    (B.samples.length / chunkSizeOf B.sampleRate - 1)

/-- The non-degenerate output of `findAudioBoundaries` in closed form:
`startTime = startChunk·chunk/rate` and
`endTime = (endChunk+1)·chunk/rate` with `endChunk` the backward-scan
result, both scans landing on chunks at or above the threshold. -/
theorem boundaries_closed_form (B : ABuffer)
    (h : (findAudioBoundaries B).1 < (findAudioBoundaries B).2) :
    0 < B.sampleRate ∧
    startChunkOf B < B.samples.length / chunkSizeOf B.sampleRate ∧
    startChunkOf B ≤ eChunk B ∧
    eChunk B < B.samples.length / chunkSizeOf B.sampleRate ∧
    ¬ chunkRmsSq B.samples (chunkSizeOf B.sampleRate) (startChunkOf B) < TRIM_THRESHOLD_SQ ∧
    ¬ chunkRmsSq B.samples (chunkSizeOf B.sampleRate) (eChunk B) < TRIM_THRESHOLD_SQ ∧
    (findAudioBoundaries B).1
      = ((startChunkOf B * chunkSizeOf B.sampleRate : ℕ) : ℚ) / (B.sampleRate : ℚ) ∧
    (findAudioBoundaries B).2
      = (((eChunk B + 1) * chunkSizeOf B.sampleRate : ℕ) : ℚ) / (B.sampleRate : ℚ) := by
  have hrate : 0 < B.sampleRate := rate_pos_of_bounds B h
  have hrateQ : (0 : ℚ) < (B.sampleRate : ℚ) := by exact_mod_cast hrate
  have hrsl : (rmsValues B.samples (chunkSizeOf B.sampleRate)).length
      = B.samples.length / chunkSizeOf B.sampleRate := rmsValues_length _ _
  have haN : startChunkOf B < B.samples.length / chunkSizeOf B.sampleRate := by
    have hle : startChunkOf B ≤ B.samples.length / chunkSizeOf B.sampleRate := by
      rw [← hrsl]
      exact forwardScan_le _
    rcases Nat.lt_or_ge (startChunkOf B) (B.samples.length / chunkSizeOf B.sampleRate)
      with hlt | hge
    · exact hlt
    · have heq : startChunkOf B = (rmsValues B.samples (chunkSizeOf B.sampleRate)).length := by
        omega
      exact absurd (boundaries_degenerate_of_start_full B heq) (not_le.mpr h)
  have hN0 : B.samples.length / chunkSizeOf B.sampleRate ≠ 0 := by omega
  have haj : startChunkOf B ≤ B.samples.length / chunkSizeOf B.sampleRate - 1 := by omega
  have hae : startChunkOf B ≤ backScanNat (rmsValues B.samples (chunkSizeOf B.sampleRate))
      (startChunkOf B) (B.samples.length / chunkSizeOf B.sampleRate - 1) :=
    backScanNat_ge _ _ _ haj
  have heN : backScanNat (rmsValues B.samples (chunkSizeOf B.sampleRate))
      (startChunkOf B) (B.samples.length / chunkSizeOf B.sampleRate - 1)
      < B.samples.length / chunkSizeOf B.sampleRate := by
    have := backScanNat_le (rmsValues B.samples (chunkSizeOf B.sampleRate))
      (startChunkOf B) (B.samples.length / chunkSizeOf B.sampleRate - 1)
    omega
  have hquiet_a : ¬ (rmsValues B.samples (chunkSizeOf B.sampleRate)).getD (startChunkOf B) 0
      < TRIM_THRESHOLD_SQ := by
    apply forwardScan_spec
    rw [hrsl]
    exact haN
  have hquiet_a' : ¬ chunkRmsSq B.samples (chunkSizeOf B.sampleRate) (startChunkOf B)
      < TRIM_THRESHOLD_SQ := by
    rw [← rmsValues_getD _ _ _ haN]
    exact hquiet_a
  have hquiet_e' : ¬ chunkRmsSq B.samples (chunkSizeOf B.sampleRate)
      (backScanNat (rmsValues B.samples (chunkSizeOf B.sampleRate))
        (startChunkOf B) (B.samples.length / chunkSizeOf B.sampleRate - 1))
      < TRIM_THRESHOLD_SQ := by
    rcases backScanNat_spec (rmsValues B.samples (chunkSizeOf B.sampleRate))
        (startChunkOf B) (B.samples.length / chunkSizeOf B.sampleRate - 1) haj with heq | hq
    · rw [heq]
      exact hquiet_a'
    · rw [← rmsValues_getD _ _ _ heN]
      exact hq
  have hendB : endChunkB B = ((backScanNat (rmsValues B.samples (chunkSizeOf B.sampleRate))
      (startChunkOf B) (B.samples.length / chunkSizeOf B.sampleRate - 1) : ℕ) : ℤ) := by
    unfold endChunkB endChunkOf
    rw [if_neg (by rw [hrsl]; exact hN0)]
    rw [hrsl]
  have hstart : (findAudioBoundaries B).1
      = ((startChunkOf B * chunkSizeOf B.sampleRate : ℕ) : ℚ) / (B.sampleRate : ℚ) := by
    unfold findAudioBoundaries
    apply max_eq_right
    positivity
  have hendle : (backScanNat (rmsValues B.samples (chunkSizeOf B.sampleRate))
      (startChunkOf B) (B.samples.length / chunkSizeOf B.sampleRate - 1) + 1)
      * chunkSizeOf B.sampleRate ≤ B.samples.length := by
    have h1 : backScanNat (rmsValues B.samples (chunkSizeOf B.sampleRate))
        (startChunkOf B) (B.samples.length / chunkSizeOf B.sampleRate - 1) + 1
        ≤ B.samples.length / chunkSizeOf B.sampleRate := by omega
    calc (backScanNat (rmsValues B.samples (chunkSizeOf B.sampleRate))
        (startChunkOf B) (B.samples.length / chunkSizeOf B.sampleRate - 1) + 1)
          * chunkSizeOf B.sampleRate
        ≤ (B.samples.length / chunkSizeOf B.sampleRate) * chunkSizeOf B.sampleRate :=
          Nat.mul_le_mul_right _ h1
      _ ≤ B.samples.length := Nat.div_mul_le_self _ _
  have hend : (findAudioBoundaries B).2
      = (((backScanNat (rmsValues B.samples (chunkSizeOf B.sampleRate))
            (startChunkOf B) (B.samples.length / chunkSizeOf B.sampleRate - 1) + 1)
          * chunkSizeOf B.sampleRate : ℕ) : ℚ) / (B.sampleRate : ℚ) := by
    unfold findAudioBoundaries
    rw [hendB]
    have hcast : (((backScanNat (rmsValues B.samples (chunkSizeOf B.sampleRate))
        (startChunkOf B) (B.samples.length / chunkSizeOf B.sampleRate - 1) : ℕ) : ℤ) + 1)
          * ((chunkSizeOf B.sampleRate : ℕ) : ℤ)
        = (((backScanNat (rmsValues B.samples (chunkSizeOf B.sampleRate))
            (startChunkOf B) (B.samples.length / chunkSizeOf B.sampleRate - 1) + 1)
          * chunkSizeOf B.sampleRate : ℕ) : ℤ) := by
      push_cast
      ring
    rw [hcast, Int.cast_natCast]
    apply min_eq_right
    unfold ABuffer.duration
    have hle : (((backScanNat (rmsValues B.samples (chunkSizeOf B.sampleRate))
          (startChunkOf B) (B.samples.length / chunkSizeOf B.sampleRate - 1) + 1)
        * chunkSizeOf B.sampleRate : ℕ) : ℚ) ≤ (B.samples.length : ℚ) := by
      exact_mod_cast hendle
    exact (div_le_div_right hrateQ).mpr hle
  exact ⟨hrate, haN, hae, heN, hquiet_a', hquiet_e', hstart, hend⟩

theorem kept_upper_bound (B : ABuffer)
    (h : (findAudioBoundaries B).1 < (findAudioBoundaries B).2) :
    (eChunk B + 1) * chunkSizeOf B.sampleRate ≤ B.samples.length := by
  obtain ⟨-, -, -, heN, -, -, -, -⟩ := boundaries_closed_form B h
  calc (eChunk B + 1) * chunkSizeOf B.sampleRate
      ≤ (B.samples.length / chunkSizeOf B.sampleRate) * chunkSizeOf B.sampleRate :=
        Nat.mul_le_mul_right _ (by omega)
    _ ≤ B.samples.length := Nat.div_mul_le_self _ _

/-- The extracted span, in samples: exactly the chunks
`startChunk … endChunk` of the original buffer. -/
theorem extract_kept_samples (B : ABuffer)
    (h : (findAudioBoundaries B).1 < (findAudioBoundaries B).2) :
    (extractAudioSegment B (findAudioBoundaries B).1 (findAudioBoundaries B).2).samples
      = (B.samples.drop (startChunkOf B * chunkSizeOf B.sampleRate)).take
          ((eChunk B + 1 - startChunkOf B) * chunkSizeOf B.sampleRate) := by
  obtain ⟨hrate, haN, hae, heN, -, -, hstart, hend⟩ := boundaries_closed_form B h
  have hne : (B.sampleRate : ℚ) ≠ 0 := by
    exact_mod_cast Nat.pos_iff_ne_zero.mp hrate
  have hfloor : ⌊(findAudioBoundaries B).1 * (B.sampleRate : ℚ)⌋
      = ((startChunkOf B * chunkSizeOf B.sampleRate : ℕ) : ℤ) := by
    rw [hstart, div_mul_cancel₀ _ hne, Int.floor_natCast]
  have hceil : ⌈(findAudioBoundaries B).2 * (B.sampleRate : ℚ)⌉
      = (((eChunk B + 1) * chunkSizeOf B.sampleRate : ℕ) : ℤ) := by
    rw [hend, div_mul_cancel₀ _ hne, Int.ceil_natCast]
  show (B.samples.drop (Int.toNat ⌊(findAudioBoundaries B).1 * (B.sampleRate : ℚ)⌋)).take
      (min (Int.toNat ⌈(findAudioBoundaries B).2 * (B.sampleRate : ℚ)⌉) B.samples.length -
        Int.toNat ⌊(findAudioBoundaries B).1 * (B.sampleRate : ℚ)⌋) = _
  rw [hfloor, hceil, Int.toNat_natCast, Int.toNat_natCast]
  rw [min_eq_left (kept_upper_bound B h)]
  rw [Nat.sub_mul]

theorem extract_kept_length (B : ABuffer)
    (h : (findAudioBoundaries B).1 < (findAudioBoundaries B).2) :
    (extractAudioSegment B (findAudioBoundaries B).1 (findAudioBoundaries B).2).samples.length
      = (eChunk B + 1 - startChunkOf B) * chunkSizeOf B.sampleRate := by
  obtain ⟨-, -, hae, -, -, -, -, -⟩ := boundaries_closed_form B h
  have hub := kept_upper_bound B h
  rw [extract_kept_samples B h, List.length_take, List.length_drop]
  have hsm : (eChunk B + 1 - startChunkOf B) * chunkSizeOf B.sampleRate
      = (eChunk B + 1) * chunkSizeOf B.sampleRate
        - startChunkOf B * chunkSizeOf B.sampleRate := Nat.sub_mul _ _ _
  omega

/-- Chunk `i` of the kept span is chunk `startChunk + i` of the original
buffer. -/
theorem kept_chunk_slice (B : ABuffer)
    (h : (findAudioBoundaries B).1 < (findAudioBoundaries B).2)
    (i : ℕ) (hi : i < eChunk B + 1 - startChunkOf B) :
    (((extractAudioSegment B (findAudioBoundaries B).1
        (findAudioBoundaries B).2).samples.drop (i * chunkSizeOf B.sampleRate)).take
      (chunkSizeOf B.sampleRate))
      = ((B.samples.drop ((startChunkOf B + i) * chunkSizeOf B.sampleRate)).take
          (chunkSizeOf B.sampleRate)) := by
  rw [extract_kept_samples B h]
  rw [List.drop_take]
  rw [List.take_take]
  rw [List.drop_drop]
  have harith : startChunkOf B * chunkSizeOf B.sampleRate + i * chunkSizeOf B.sampleRate
      = (startChunkOf B + i) * chunkSizeOf B.sampleRate := by ring
  rw [harith]
  congr 1
  have h1 : (i + 1) * chunkSizeOf B.sampleRate
      ≤ (eChunk B + 1 - startChunkOf B) * chunkSizeOf B.sampleRate :=
    Nat.mul_le_mul_right _ (by omega)
  have h2 : (i + 1) * chunkSizeOf B.sampleRate
      = i * chunkSizeOf B.sampleRate + chunkSizeOf B.sampleRate := by ring
  omega

/-- Re-running `findAudioBoundaries` on the kept span finds the span whole:
start time `0`, end time its full duration. -/
theorem kept_span_boundaries (B : ABuffer)
    (h : (findAudioBoundaries B).1 < (findAudioBoundaries B).2) :
    (findAudioBoundaries (extractAudioSegment B (findAudioBoundaries B).1
        (findAudioBoundaries B).2)).1 = 0 ∧
    (findAudioBoundaries (extractAudioSegment B (findAudioBoundaries B).1
        (findAudioBoundaries B).2)).2
      = (extractAudioSegment B (findAudioBoundaries B).1 (findAudioBoundaries B).2).duration := by
  obtain ⟨hrate, haN, hae, heN, hqa, hqe, -, -⟩ := boundaries_closed_form B h
  have hc : 0 < chunkSizeOf B.sampleRate := chunkSizeOf_pos _
  have hm1 : 1 ≤ eChunk B + 1 - startChunkOf B := by omega
  have hKrate : (extractAudioSegment B (findAudioBoundaries B).1
      (findAudioBoundaries B).2).sampleRate = B.sampleRate := rfl
  have hKlen := extract_kept_length B h
  have hKN : (extractAudioSegment B (findAudioBoundaries B).1
        (findAudioBoundaries B).2).samples.length / chunkSizeOf B.sampleRate
      = eChunk B + 1 - startChunkOf B := by
    rw [hKlen]
    exact Nat.mul_div_cancel _ hc
  have hKrms : ∀ i, i < eChunk B + 1 - startChunkOf B →
      chunkRmsSq (extractAudioSegment B (findAudioBoundaries B).1
        (findAudioBoundaries B).2).samples (chunkSizeOf B.sampleRate) i
      = chunkRmsSq B.samples (chunkSizeOf B.sampleRate) (startChunkOf B + i) := by
    intro i hi
    unfold chunkRmsSq sumOfSquares
    rw [kept_chunk_slice B h i hi]
  have hrs0 : (rmsValues (extractAudioSegment B (findAudioBoundaries B).1
        (findAudioBoundaries B).2).samples (chunkSizeOf B.sampleRate)).getD 0 0
      = chunkRmsSq B.samples (chunkSizeOf B.sampleRate) (startChunkOf B) := by
    rw [rmsValues_getD _ _ 0 (by omega)]
    rw [hKrms 0 (by omega)]
    rw [Nat.add_zero]
  have hrsLast : (rmsValues (extractAudioSegment B (findAudioBoundaries B).1
        (findAudioBoundaries B).2).samples (chunkSizeOf B.sampleRate)).getD
        (eChunk B + 1 - startChunkOf B - 1) 0
      = chunkRmsSq B.samples (chunkSizeOf B.sampleRate) (eChunk B) := by
    rw [rmsValues_getD _ _ _ (by omega)]
    rw [hKrms _ (by omega)]
    congr 1
    omega
  have hrs'len : (rmsValues (extractAudioSegment B (findAudioBoundaries B).1
        (findAudioBoundaries B).2).samples (chunkSizeOf B.sampleRate)).length
      = eChunk B + 1 - startChunkOf B := by
    rw [rmsValues_length, hKN]
  have hfsK : startChunkOf (extractAudioSegment B (findAudioBoundaries B).1
      (findAudioBoundaries B).2) = 0 := by
    show forwardScan _ = 0
    apply forwardScan_eq_zero
    · intro hnil
      rw [hKrate] at hnil
      rw [hnil] at hrs'len
      simp at hrs'len
      omega
    · rw [hKrate, hrs0]
      exact hqa
  have hbsK : endChunkB (extractAudioSegment B (findAudioBoundaries B).1
      (findAudioBoundaries B).2) = ((eChunk B + 1 - startChunkOf B - 1 : ℕ) : ℤ) := by
    show endChunkOf _ _ = _
    rw [endChunkOf, if_neg (by rw [hKrate, hrs'len]; omega)]
    rw [hKrate, hrs'len, hfsK]
    congr 1
    apply backScanNat_of_not_quiet
    rw [hrsLast]
    exact hqe
  constructor
  · show max 0 _ = 0
    rw [hfsK]
    norm_num
  · show min _ _ = _
    rw [hbsK]
    have hcast : (((eChunk B + 1 - startChunkOf B - 1 : ℕ) : ℤ) + 1)
          * ((chunkSizeOf (extractAudioSegment B (findAudioBoundaries B).1
              (findAudioBoundaries B).2).sampleRate : ℕ) : ℤ)
        = (((eChunk B + 1 - startChunkOf B) * chunkSizeOf B.sampleRate : ℕ) : ℤ) := by
      rw [hKrate]
      have hnat : (eChunk B + 1 - startChunkOf B - 1) + 1
          = eChunk B + 1 - startChunkOf B := by omega
      rw [← hnat]
      push_cast
      ring
    rw [hcast, Int.cast_natCast]
    have hdur : (extractAudioSegment B (findAudioBoundaries B).1
          (findAudioBoundaries B).2).duration
        = (((eChunk B + 1 - startChunkOf B) * chunkSizeOf B.sampleRate : ℕ) : ℚ)
          / (B.sampleRate : ℚ) := by
      unfold ABuffer.duration
      rw [hKrate, hKlen]
    rw [hdur]
    exact min_self _

/-- C8: applying the trimmer to its own output is a no-op.  If a first run
took the trim path (non-degenerate boundaries) and the second run's decode
returns exactly the kept span with its exact duration (the idealization of
"beyond floating-point tolerance"), the second `trimSilence` call returns
its input blob unchanged: re-scanning the kept span finds the full span, so
no time would be saved and the trimmer bails out. -/
theorem trim_idempotent_on_kept_span :
    ∀ (B : ABuffer) (env2 : TrimEnv) (blob2 : Blob),
      (findAudioBoundaries B).1 < (findAudioBoundaries B).2 →
      env2.decoded = some (extractAudioSegment B (findAudioBoundaries B).1
        (findAudioBoundaries B).2) →
      env2.durationOfOriginal = .ok ((extractAudioSegment B (findAudioBoundaries B).1
        (findAudioBoundaries B).2).duration) →
      trimSilence env2 blob2 = blob2 := by
  intro B env2 blob2 h hdec hdur
  rcases trimSilence_result env2 blob2 with hres |
    ⟨buf, d, tb, hdur', hdec', h2, h3, h4, henc, h5, h6, hres⟩
  · exact hres
  · exfalso
    rw [hdec] at hdec'
    have hb : buf = extractAudioSegment B (findAudioBoundaries B).1 (findAudioBoundaries B).2 :=
      (Option.some_inj.mp hdec').symm
    subst hb
    rw [hdur] at hdur'
    injection hdur' with hd
    subst hd
    have hkept := kept_span_boundaries B h
    rw [hkept.1, hkept.2] at h4
    apply h4
    norm_num

theorem loud_buffer_bounds :
    (findAudioBoundaries ⟨List.replicate 1024 (1 / 2), 8⟩).1
      < (findAudioBoundaries ⟨List.replicate 1024 (1 / 2), 8⟩).2 := by
  have hfab : findAudioBoundaries ⟨List.replicate 1024 (1 / 2), 8⟩ = (0, 128) := by
    have hcs : chunkSizeOf 8 = 1024 := by norm_num [chunkSizeOf, MIN_TRIM_CHUNK_MS]
    have hrms : rmsValues (List.replicate 1024 (1 / 2)) 1024 = [1 / 4] := by
      norm_num [rmsValues, chunkRmsSq, sumOfSquares, List.range_succ, List.range_zero,
        List.take_replicate, List.map_replicate, List.sum_replicate, nsmul_eq_mul]
    have hfs : forwardScan [(1 : ℚ) / 4] = 0 := by
      rw [forwardScan, if_neg]
      norm_num [TRIM_THRESHOLD_SQ]
    have hstart : startChunkOf ⟨List.replicate 1024 (1 / 2), 8⟩ = 0 := by
      show forwardScan (rmsValues (List.replicate 1024 (1 / 2)) (chunkSizeOf 8)) = 0
      rw [hcs, hrms, hfs]
    have hend : endChunkB ⟨List.replicate 1024 (1 / 2), 8⟩ = 0 := by
      show endChunkOf (rmsValues (List.replicate 1024 (1 / 2)) (chunkSizeOf 8)) _ = 0
      rw [hcs, hrms, endChunkOf, if_neg (by norm_num)]
      rfl
    unfold findAudioBoundaries
    rw [hstart, hend]
    show (max 0 (((0 * chunkSizeOf 8 : ℕ) : ℚ) / ((8 : ℕ) : ℚ)),
      min (ABuffer.duration ⟨List.replicate 1024 (1 / 2), 8⟩)
        ((((0 + 1) * (chunkSizeOf 8 : ℤ) : ℤ) : ℚ) / ((8 : ℕ) : ℚ))) = (0, 128)
    rw [hcs]
    norm_num [ABuffer.duration]
  rw [hfab]
  norm_num

/-- C8 (witness): re-trimming the kept span of a 1024-sample loud buffer
(sample rate 8, one loud chunk) is a no-op. -/
theorem trim_idempotent_on_kept_span_witness :
    trimSilence
      ⟨.ok ((extractAudioSegment ⟨List.replicate 1024 (1 / 2), 8⟩
          (findAudioBoundaries ⟨List.replicate 1024 (1 / 2), 8⟩).1
          (findAudioBoundaries ⟨List.replicate 1024 (1 / 2), 8⟩).2).duration),
       some (extractAudioSegment ⟨List.replicate 1024 (1 / 2), 8⟩
          (findAudioBoundaries ⟨List.replicate 1024 (1 / 2), 8⟩).1
          (findAudioBoundaries ⟨List.replicate 1024 (1 / 2), 8⟩).2),
       fun _ => .error (), fun _ => .error ()⟩
      ⟨9, 300⟩ = ⟨9, 300⟩ :=
  trim_idempotent_on_kept_span ⟨List.replicate 1024 (1 / 2), 8⟩ _ ⟨9, 300⟩
    loud_buffer_bounds rfl rfl

end A3I
